import Mathlib

/-!
# Laigter main window: a verification development

Shallow embedding of the parts of `src/main_window.cpp` that decide the
properties proved below.  C++ `int` values that are non-negative by construction
(loop counters, image dimensions) are natural numbers; signed overflow is
undefined behaviour in C++, so the model describes the executions in which no
`int` operation overflows.
-/

namespace Laigter

/-! ## Qt value types used by the main window -/

/-- A `QString`, as its sequence of characters. -/
abbrev QString := List Char

/-- A `QRect` built from a top-left `QPoint` and a `QSize`. -/
structure QRect where
  x : Nat
  y : Nat
  width : Nat
  height : Nat
  deriving DecidableEq, Repr

/-- Decimal text of a non-negative number, as `QString::number` prints it. -/
def toDecimal (n : Nat) : QString :=
  if n = 0 then ['0'] else ((Nat.digits 10 n).reverse.map Nat.digitChar)

/-- Qt function `QString("%1").arg(a, fieldWidth, 10, fillChar)` for `a ≥ 0`: the decimal
text of `a`, right-aligned and padded on the left with `fillChar` up to
`fieldWidth` characters (never truncated). -/
def arg (a : Nat) (fieldWidth : Nat) (fillChar : Char) : QString :=
  List.replicate (fieldWidth - (toDecimal a).length) fillChar ++ toDecimal a

/-- The decimal digits of `n`, most significant first, preceded by zeros up to
`w` characters; `0` has no digits of its own here. -/
def zeroPadded (w n : Nat) : QString :=
  List.replicate (w - (Nat.digits 10 n).length) '0' ++
    (Nat.digits 10 n).reverse.map Nat.digitChar

/-- Qt function `QString::split(sep)` for a one-character separator, keeping empty parts. -/
def split (sep : Char) : QString → List QString
  | [] => [[]]
  | c :: cs =>
    if c = sep then [] :: split sep cs
    else
      match split sep cs with
      | [] => [[c]]
      | p :: ps => (c :: p) :: ps

/-- Qt function `QStringList::join(sep)`. -/
def join (parts : List QString) (sep : QString) : QString :=
  List.intercalate sep parts

/-- The value `(int)(log10(n) + 1)` for an `int` `n ≥ 1`: the floating-point
logarithm of an integer below `2^31` lies strictly between consecutive integers
unless `n` is a power of ten, where it is exact, so the truncation is
`⌊log₁₀ n⌋ + 1`. -/
def log10_plus_one (n : Nat) : Nat :=
  Nat.log 10 n + 1

/-! ## `MainWindow::list_menu_action_triggered`, branch "Split in frames" -/

/-- The `frame_number` string of cell `(i, j)`. -/
def frame_number (h_frames v_frames i j : Nat) : QString :=
  arg (j + i * h_frames) (log10_plus_one (v_frames * h_frames)) '0'

/-- The synthetic `path` of cell `(i, j)`:
`filePath.split(".").join("_" + frame_number + ".")`. -/
def frame_path (filePath : QString) (h_frames v_frames i j : Nat) : QString :=
  join (split '.' filePath) ('_' :: frame_number h_frames v_frames i j ++ ['.'])

/-- The rectangle `QRect(top_left, size)` copied out of the original image
(of size `W × H`) for cell `(i, j)`. -/
def frame_rect (W H h_frames v_frames i j : Nat) : QRect :=
  { x := j * W / h_frames, y := i * H / v_frames,
    width := W / h_frames, height := H / v_frames }

/-- The sequence of `n_p->loadImage(path, original.copy(rect))` calls made by
"Split in frames", in call order; each call is recorded as its path and the
rectangle handed to `QImage::copy`.  `h_frames` and `v_frames` are the `int`s
returned by the `FrameSplitter` dialog. -/
def split_in_frames (filePath : QString) (W H : Nat) (h_frames v_frames : Int) :
    List (QString × QRect) :=
  if h_frames > 0 ∧ v_frames > 0 then
    (List.range v_frames.toNat).flatMap fun i =>
      (List.range h_frames.toNat).map fun j =>
        (frame_path filePath h_frames.toNat v_frames.toNat i j,
         frame_rect W H h_frames.toNat v_frames.toNat i j)
  else []

/-! ## Collaborators of the main window

`ImageLoader`, `ImageProcessor`, `LightSource` and `Project` are classes of the
application that `main_window.cpp` only calls.  The main-window functions below
take the image loader, the file system and the processor interface as
parameters, so that what is proved of them holds for every implementation. -/

/-- A decoded `QImage`: its dimensions and its pixel contents. -/
structure QImage where
  width : Nat
  height : Nat
  premultiplied : Bool
  pixels : List Nat
  deriving DecidableEq, Repr

/-- Qt function `QImage::convertToFormat(QImage::Format_RGBA8888_Premultiplied)`. -/
def QImage.convertToFormat (img : QImage) : QImage :=
  { img with premultiplied := true }

/-- The result of `ImageLoader::loadImage(fileName, &success)`: the decoded image and the
success flag. -/
abbrev ImageLoader := QString → QImage × Bool

/-- What `QFile(path).exists()` and `QFile(path).size()` answer. -/
structure FileSystem where
  fileExists : QString → Bool
  size : QString → Nat

/-- The files watched by the `QFileSystemWatcher fs_watcher`. -/
abbrev FsWatcher := List QString

/-- Qt function `QFileSystemWatcher::addPath`: the path is added unless it does not exist
or is already watched. -/
def FsWatcher.addPath (fsys : FileSystem) (w : FsWatcher) (path : QString) : FsWatcher :=
  if fsys.fileExists path = true ∧ path ∉ w then w ++ [path] else w

/-- The part of the `ImageProcessor` interface that the functions below call,
over an arbitrary processor state `P`. -/
structure ImageProcessorApi (P : Type) where
  get_name : P → QString
  get_specular_path : P → QString
  get_heightmap_path : P → QString
  loadImage : QString → QImage → P → P
  loadSpecularMap : QString → QImage → P → P
  loadHeightMap : QString → QImage → P → P

/-- The state of the main window that file notifications and the list context
menu act on. -/
structure MainWindow (P : Type) where
  processorList : List P
  fs_watcher : FsWatcher
  need_to_update : Bool
  deriving DecidableEq

/-! ## `MainWindow::onFileChanged` -/

/-- The body of the `Q_FOREACH` loop of `onFileChanged` for one processor. -/
def onFileChanged_body {P : Type} (api : ImageProcessorApi P) (il : ImageLoader)
    (file_path : QString) (ip : P) : P :=
  let auximage := (il file_path).1
  let ip1 := if file_path = api.get_name ip then api.loadImage file_path auximage ip else ip
  let ip2 := if file_path = api.get_specular_path ip1
    then api.loadSpecularMap file_path auximage ip1 else ip1
  if file_path = api.get_heightmap_path ip2
    then api.loadHeightMap file_path auximage ip2 else ip2

/-- The function `MainWindow::onFileChanged(file_path)`. -/
def onFileChanged {P : Type} (api : ImageProcessorApi P) (fsys : FileSystem)
    (il : ImageLoader) (file_path : QString) (s : MainWindow P) : MainWindow P :=
  if fsys.fileExists file_path = false then s
  else if fsys.size file_path = 0 then s
  else
    { s with
      processorList := s.processorList.map (onFileChanged_body api il file_path)
      need_to_update := true }

/-! ## `MainWindow::list_menu_action_triggered`, file-loading branches

Each branch acts on the processor `p` found for the current list item and on
`fs_watcher`; the file names are what the file dialog returned (a null
`QString` is the empty string). -/

/-- Branch "Load heightmap". -/
def load_heightmap {P : Type} (api : ImageProcessorApi P) (fsys : FileSystem)
    (il : ImageLoader) (fileName : QString) (s : P × FsWatcher) : P × FsWatcher :=
  if fileName ≠ [] then
    let height := il fileName
    if height.2 = false then s
    else (api.loadHeightMap fileName height.1.convertToFormat s.1,
          FsWatcher.addPath fsys s.2 fileName)
  else s

/-- Branch "Load specular map". -/
def load_specular_map {P : Type} (api : ImageProcessorApi P) (fsys : FileSystem)
    (il : ImageLoader) (fileName : QString) (s : P × FsWatcher) : P × FsWatcher :=
  if fileName ≠ [] then
    let spec := il fileName
    if spec.2 = false then s
    else (api.loadSpecularMap fileName spec.1.convertToFormat s.1,
          FsWatcher.addPath fsys s.2 fileName)
  else s

/-- Branch "Add new frames": the `foreach` over the chosen files, left by
`return` at the first file that fails to decode. -/
def add_new_frames {P : Type} (api : ImageProcessorApi P) (fsys : FileSystem)
    (il : ImageLoader) : List QString → P × FsWatcher → P × FsWatcher
  | [], s => s
  | fileName :: rest, s =>
    if fileName ≠ [] then
      let image := il fileName
      if image.2 = false then s
      else
        add_new_frames api fsys il rest
          (api.loadImage fileName image.1.convertToFormat s.1,
           FsWatcher.addPath fsys s.2 fileName)
    else add_new_frames api fsys il rest s

/-! ## A processor model -/

/-- One frame (`Sprite`) of a processor: the diffuse image and its file, and the
height-map and specular-map sources with their files. -/
structure Sprite where
  fileName : QString
  image : QImage
  heightmapPath : QString
  heightmap : QImage
  specularPath : QString
  specular : QImage
  deriving DecidableEq, Repr

/-- Modelled from the spec: the `ImageProcessor` class (not part of
`main_window.cpp`): a named, ordered sequence of frames with a current-frame
index. -/
structure ImageProcessor where
  name : QString
  frames : List Sprite
  current_frame_id : Nat
  deriving DecidableEq, Repr

/-- Modelled from the spec: `ImageProcessor::loadImage(path, pixels)` "adds or
replaces a frame; if the Sprite had zero frames, this becomes frame 0;
dimensions of a newly added frame must match existing frames or the operation
fails with a dimension-mismatch error and the frame is rejected". -/
def ImageProcessor.loadImage (path : QString) (image : QImage) (p : ImageProcessor) :
    ImageProcessor :=
  let frame : Sprite :=
    { fileName := path, image := image, heightmapPath := [], heightmap := image,
      specularPath := [], specular := image }
  match p.frames with
  | [] => { p with frames := [frame] }
  | f :: _ =>
    if image.width = f.image.width ∧ image.height = f.image.height then
      if p.frames.any (fun g => g.fileName = path) then
        { p with frames := p.frames.map fun g =>
            if g.fileName = path then { g with image := image } else g }
      else { p with frames := p.frames ++ [frame] }
    else p

/-- Modelled from the spec: `load_height_map(path, pixels)` "attach[es] an
externally authored override for the current frame". -/
def ImageProcessor.loadHeightMap (path : QString) (image : QImage) (p : ImageProcessor) :
    ImageProcessor :=
  let attach : Sprite → Sprite := fun g => { g with heightmapPath := path, heightmap := image }
  { p with frames := List.modify attach p.current_frame_id p.frames }

/-- Modelled from the spec: `load_specular_map(path, pixels)` "attach[es] an
externally authored override for the current frame". -/
def ImageProcessor.loadSpecularMap (path : QString) (image : QImage) (p : ImageProcessor) :
    ImageProcessor :=
  let attach : Sprite → Sprite := fun g => { g with specularPath := path, specular := image }
  { p with frames := List.modify attach p.current_frame_id p.frames }

/-- Modelled from the spec: the path getters of `ImageProcessor` read the
current frame. -/
def ImageProcessor.get_heightmap_path (p : ImageProcessor) : QString :=
  (p.frames.get? p.current_frame_id).elim [] Sprite.heightmapPath

/-- Modelled from the spec: the path getters of `ImageProcessor` read the
current frame. -/
def ImageProcessor.get_specular_path (p : ImageProcessor) : QString :=
  (p.frames.get? p.current_frame_id).elim [] Sprite.specularPath

/-- The processor model packaged as the interface the main window calls. -/
def ImageProcessor.api : ImageProcessorApi ImageProcessor where
  get_name := ImageProcessor.name
  get_specular_path := ImageProcessor.get_specular_path
  get_heightmap_path := ImageProcessor.get_heightmap_path
  loadImage := ImageProcessor.loadImage
  loadSpecularMap := ImageProcessor.loadSpecularMap
  loadHeightMap := ImageProcessor.loadHeightMap

/-! ## JSON values

C++ `float` and `double` values are the rational numbers they denote (only
finite values occur in a light).  Widening a `float` to a `double` and storing
an `int` in a `double` are exact; narrowing a `double` to a `float` rounds, and
is a parameter `toFloat` of `LoadProject`. -/

/-- A `QJsonValue`. -/
inductive QJsonValue where
  | undefined : QJsonValue
  | null : QJsonValue
  | bool (b : Bool) : QJsonValue
  | double (d : ℚ) : QJsonValue
  | string (s : QString) : QJsonValue
  | array (a : List QJsonValue) : QJsonValue
  | object (o : List (QString × QJsonValue)) : QJsonValue

/-- A `QJsonObject`: its key/value pairs. -/
abbrev QJsonObject := List (QString × QJsonValue)

/-- Qt function `QJsonObject::insert(key, value)`: replaces the value of an existing key,
adds the pair otherwise. -/
def QJsonObject.insert (o : QJsonObject) (key : QString) (v : QJsonValue) : QJsonObject :=
  match o with
  | [] => [(key, v)]
  | (k, w) :: rest =>
    if k = key then (k, v) :: rest else (k, w) :: QJsonObject.insert rest key v

/-- Qt function `QJsonObject::value(key)`: `Undefined` for a missing key. -/
def QJsonObject.value (o : QJsonObject) (key : QString) : QJsonValue :=
  match o with
  | [] => QJsonValue.undefined
  | (k, w) :: rest => if k = key then w else QJsonObject.value rest key

/-- Qt function `QJsonValue::toObject()`. -/
def QJsonValue.toObject : QJsonValue → QJsonObject
  | QJsonValue.object o => o
  | _ => []

/-- Qt function `QJsonValue::toArray()`. -/
def QJsonValue.toArray : QJsonValue → List QJsonValue
  | QJsonValue.array a => a
  | _ => []

/-- Qt function `QJsonValue::toDouble()`. -/
def QJsonValue.toDouble : QJsonValue → ℚ
  | QJsonValue.double d => d
  | _ => 0

/-- Qt function `QJsonValue::toInt()`: the number when it is a whole number in the range
of `int`, and `0` otherwise. -/
def QJsonValue.toInt : QJsonValue → Int
  | QJsonValue.double d =>
    if d.den = 1 ∧ -2147483648 ≤ d.num ∧ d.num ≤ 2147483647 then d.num else 0
  | _ => 0

/-- Qt function `QJsonValue::toBool()`. -/
def QJsonValue.toBool : QJsonValue → Bool
  | QJsonValue.bool b => b
  | _ => false

/-- The key of a JSON member, written as a string literal in the source. -/
def key (s : String) : QString := s.toList

/-! ## Lights -/

/-- A `QVector3D`. -/
structure QVector3D where
  x : ℚ
  y : ℚ
  z : ℚ
  deriving DecidableEq

/-- A `QColor`, by the 8-bit components that `red()`, `green()` and `blue()`
return. -/
structure QColor where
  red : Fin 256
  green : Fin 256
  blue : Fin 256
  deriving DecidableEq

/-- The constructor `QColor(int r, int g, int b)`: the colour is left invalid
(all components `0`) when a component is outside `0..255`. -/
def QColor.ofRgb (r g b : Int) : QColor :=
  if 0 ≤ r ∧ r ≤ 255 ∧ 0 ≤ g ∧ g ≤ 255 ∧ 0 ≤ b ∧ b ≤ 255 then
    { red := Fin.ofNat r.toNat, green := Fin.ofNat g.toNat, blue := Fin.ofNat b.toNat }
  else { red := 0, green := 0, blue := 0 }

/-- Modelled from the spec: the `LightSource` class (declared outside
`main_window.cpp`): "3D position, diffuse color, specular color, diffuse
intensity, specular intensity, specular scatter, height". -/
structure LightSource where
  lightPosition : QVector3D
  diffuse_color : QColor
  specular_color : QColor
  diffuse_intensity : ℚ
  specular_intensity : ℚ
  specular_scatter : ℚ
  height : ℚ
  deriving DecidableEq

/-- The widgets whose values `SaveProject` writes and `LoadProject` sets. -/
structure GeneralUi where
  comboBoxView : Int
  checkBoxToon : Bool
  checkBoxPixelated : Bool
  blendSlider : Int
  checkBoxLightsPerTexture : Bool
  horizontalSliderAmbientLight : Int

/-- Modelled from the spec: the `Project` store (`project.save` and
`project.load` are not part of `main_window.cpp`): "persistence round-trips this
record without alteration".  A project file holds the general settings under
the key `general`, which is where `LoadProject` reads them. -/
abbrev Project := List (QString × QJsonObject)

/-- Modelled from the spec: `project.save(path, p_list, general_settings)`, for
the general settings. -/
def Project.save (store : Project) (path : QString) (general_settings : QJsonObject) :
    Project :=
  (path, QJsonObject.insert [] (key "general") (QJsonValue.object general_settings)) ::
    store.filter (fun e => e.1 ≠ path)

/-- Modelled from the spec: `project.load(path, &newList, &general_settings)`,
for the general settings. -/
def Project.load (store : Project) (path : QString) : QJsonObject :=
  match store.find? (fun e => e.1 = path) with
  | some e => e.2
  | none => []

/-- The JSON record that the `foreach` of `SaveProject` builds for one light. -/
def light_to_json (light : LightSource) : QJsonValue :=
  let position := light.lightPosition
  let light_position : QJsonObject := []
  let light_position := light_position.insert (key "x") (QJsonValue.double position.x)
  let light_position := light_position.insert (key "y") (QJsonValue.double position.y)
  let light_position := light_position.insert (key "z") (QJsonValue.double position.z)
  let light_props : QJsonObject := []
  let light_props := light_props.insert (key "position") (QJsonValue.object light_position)
  let color := light.diffuse_color
  let light_color : QJsonObject := []
  let light_color := light_color.insert (key "r") (QJsonValue.double (color.red.val : ℚ))
  let light_color := light_color.insert (key "g") (QJsonValue.double (color.green.val : ℚ))
  let light_color := light_color.insert (key "b") (QJsonValue.double (color.blue.val : ℚ))
  let light_props := light_props.insert (key "diffuse color") (QJsonValue.object light_color)
  let light_props := light_props.insert (key "specular color") (QJsonValue.object light_color)
  let light_props :=
    light_props.insert (key "diffuse intensity") (QJsonValue.double light.diffuse_intensity)
  let light_props :=
    light_props.insert (key "specular intensity") (QJsonValue.double light.specular_intensity)
  let light_props :=
    light_props.insert (key "specular scatter") (QJsonValue.double light.specular_scatter)
  QJsonValue.object light_props

/-- The function `MainWindow::SaveProject(path)`: the general settings and the sample light
list, handed to `project.save`. -/
def SaveProject (path : QString) (ui : GeneralUi) (sample_lights : List LightSource)
    (store : Project) : Project :=
  let general_settings : QJsonObject := []
  let general_settings :=
    general_settings.insert (key "viewmode") (QJsonValue.double (ui.comboBoxView : ℚ))
  let general_settings :=
    general_settings.insert (key "toon") (QJsonValue.bool ui.checkBoxToon)
  let general_settings :=
    general_settings.insert (key "pixelated") (QJsonValue.bool ui.checkBoxPixelated)
  let general_settings :=
    general_settings.insert (key "blend") (QJsonValue.double (ui.blendSlider : ℚ))
  let general_settings :=
    general_settings.insert (key "lights per texture")
      (QJsonValue.bool ui.checkBoxLightsPerTexture)
  let general_settings :=
    general_settings.insert (key "sample lights")
      (QJsonValue.array (sample_lights.map light_to_json))
  let general_settings :=
    general_settings.insert (key "ambient light")
      (QJsonValue.double (ui.horizontalSliderAmbientLight : ℚ))
  Project.save store path general_settings

/-- The light that the loop of `LoadProject` builds from one JSON record:
a `new LightSource` (`fresh`) with position, both colours, scatter and the two
intensities set. -/
def light_of_json (toFloat : ℚ → ℚ) (fresh : LightSource) (v : QJsonValue) : LightSource :=
  let light_json := v.toObject
  let position_json := (light_json.value (key "position")).toObject
  let light_position : QVector3D :=
    { x := toFloat (position_json.value (key "x")).toDouble,
      y := toFloat (position_json.value (key "y")).toDouble,
      z := toFloat (position_json.value (key "z")).toDouble }
  let color_json := (light_json.value (key "diffuse color")).toObject
  let diffuse := QColor.ofRgb (color_json.value (key "r")).toInt
    (color_json.value (key "g")).toInt (color_json.value (key "b")).toInt
  { fresh with
    lightPosition := light_position
    diffuse_color := diffuse
    specular_color := diffuse
    specular_scatter := toFloat (light_json.value (key "specular scatter")).toDouble
    specular_intensity := toFloat (light_json.value (key "specular intensity")).toDouble
    diffuse_intensity := toFloat (light_json.value (key "diffuse intensity")).toDouble }

/-- The function `MainWindow::LoadProject(path)`, general settings and sample lights: the
widget values and the sample light list after the call. -/
def LoadProject (toFloat : ℚ → ℚ) (fresh : LightSource) (path : QString) (store : Project) :
    GeneralUi × List LightSource :=
  let general_settings := Project.load store path
  let general_settings := (general_settings.value (key "general")).toObject
  let ui : GeneralUi :=
    { horizontalSliderAmbientLight := (general_settings.value (key "ambient light")).toInt
      blendSlider := (general_settings.value (key "blend")).toInt
      checkBoxLightsPerTexture := (general_settings.value (key "lights per texture")).toBool
      checkBoxPixelated := (general_settings.value (key "pixelated")).toBool
      checkBoxToon := (general_settings.value (key "toon")).toBool
      comboBoxView := (general_settings.value (key "viewmode")).toInt }
  let lights := (general_settings.value (key "sample lights")).toArray
  (ui, lights.map (light_of_json toFloat fresh))

/-- The attributes of a light that the project file carries: position, diffuse
colour components, diffuse intensity, specular intensity, specular scatter. -/
def LightSource.saved (l : LightSource) : QVector3D × QColor × ℚ × ℚ × ℚ :=
  (l.lightPosition, l.diffuse_color, l.diffuse_intensity, l.specular_intensity,
   l.specular_scatter)

/-- The components of a light are `float` values: narrowing leaves them as they
are. -/
def LightSource.isFloat (toFloat : ℚ → ℚ) (l : LightSource) : Prop :=
  toFloat l.lightPosition.x = l.lightPosition.x ∧
  toFloat l.lightPosition.y = l.lightPosition.y ∧
  toFloat l.lightPosition.z = l.lightPosition.z ∧
  toFloat l.diffuse_intensity = l.diffuse_intensity ∧
  toFloat l.specular_intensity = l.specular_intensity ∧
  toFloat l.specular_scatter = l.specular_scatter

/-! ## Sample data for the worked examples -/

/-- The file `/a/sprite.png`. -/
def sprite_png : QString := "/a/sprite.png".toList

/-- The file `/a/h.png`. -/
def h_png : QString := "/a/h.png".toList

/-- The file `/a/big.png`. -/
def big_png : QString := "/a/big.png".toList

/-- A `2 × 2` image. -/
def old_image : QImage :=
  { width := 2, height := 2, premultiplied := true, pixels := [1, 1, 1, 1] }

/-- Another `2 × 2` image. -/
def new_image : QImage :=
  { width := 2, height := 2, premultiplied := true, pixels := [2, 2, 2, 2] }

/-- A `3 × 3` image. -/
def big_image : QImage :=
  { width := 3, height := 3, premultiplied := true, pixels := [3, 3, 3, 3, 3, 3, 3, 3, 3] }

/-- The null image that a failed decode leaves. -/
def null_image : QImage :=
  { width := 0, height := 0, premultiplied := false, pixels := [] }

/-- A file system in which every file exists and has 10 bytes. -/
def sample_fs : FileSystem :=
  { fileExists := fun _ => true, size := fun _ => 10 }

/-- A file system in which `/a/sprite.png` exists and is momentarily empty. -/
def empty_file_fs : FileSystem :=
  { fileExists := fun _ => true, size := fun _ => 0 }

/-- A loader for which `/a/sprite.png` now decodes to `new_image`,
`/a/big.png` to `big_image`, and every other file fails to decode. -/
def sample_loader : ImageLoader := fun path =>
  if path = sprite_png then (new_image, true)
  else if path = big_png then (big_image, true)
  else (null_image, false)

/-- The processor that `open_files` builds for `/a/sprite.png`: named by the
base name `sprite`, with the one frame loaded from the file. -/
def sprite_processor : ImageProcessor :=
  { name := "sprite".toList
    frames := [{ fileName := sprite_png, image := old_image, heightmapPath := [],
                 heightmap := old_image, specularPath := [], specular := old_image }]
    current_frame_id := 0 }

/-- The same processor after "Load heightmap" attached `/a/h.png`. -/
def heightmap_processor : ImageProcessor :=
  { name := "sprite".toList
    frames := [{ fileName := sprite_png, image := old_image, heightmapPath := h_png,
                 heightmap := new_image, specularPath := [], specular := old_image }]
    current_frame_id := 0 }

/-- A red light whose specular colour is blue. -/
def sample_light : LightSource :=
  { lightPosition := { x := 1, y := 2, z := 3 }
    diffuse_color := { red := 255, green := 0, blue := 0 }
    specular_color := { red := 0, green := 0, blue := 255 }
    diffuse_intensity := 1
    specular_intensity := 1
    specular_scatter := 32
    height := 3 }

/-- A white light at the origin, standing for a newly constructed
`LightSource`. -/
def fresh_light : LightSource :=
  { lightPosition := { x := 0, y := 0, z := 0 }
    diffuse_color := { red := 255, green := 255, blue := 255 }
    specular_color := { red := 255, green := 255, blue := 255 }
    diffuse_intensity := 0
    specular_intensity := 0
    specular_scatter := 0
    height := 0 }

/-- A red light whose specular colour is its diffuse colour and whose height is
that of a newly constructed `LightSource`. -/
def red_light : LightSource :=
  { lightPosition := { x := 4, y := 5, z := 6 }
    diffuse_color := { red := 255, green := 0, blue := 0 }
    specular_color := { red := 255, green := 0, blue := 0 }
    diffuse_intensity := 2
    specular_intensity := 3
    specular_scatter := 16
    height := 0 }

/-- Widget values for the worked examples. -/
def sample_ui : GeneralUi :=
  { comboBoxView := 0, checkBoxToon := false, checkBoxPixelated := true, blendSlider := 50,
    checkBoxLightsPerTexture := false, horizontalSliderAmbientLight := 80 }

/-- The project file `/a/p.laigter`. -/
def project_path : QString := "/a/p.laigter".toList

/-! ## The context menu of the list widget -/

/-- The text `tr("...")` of a menu action, for the untranslated application. -/
def tr (s : String) : QString := s.toList

/-- An entry of a `QMenu`: an action with its text and its enabled flag, or a
separator. -/
inductive MenuEntry where
  | action (text : QString) (enabled : Bool) : MenuEntry
  | separator : MenuEntry
  deriving DecidableEq

/-- What `showContextMenuForListWidget` reads of the processor `p` found for the
current item: `p->frames.count()`, `p->animation.isActive()` and
`p->get_current_frame_id()`. -/
structure FrameView where
  frames_count : Int
  animation_isActive : Bool
  current_frame_id : Int
  deriving DecidableEq

/-- The function `MainWindow::showContextMenuForListWidget`: the entries of the
menu that is shown, in order, or `none` when no item is selected and the
function returns without a menu.  `selected_count` is
`ui->listWidget->selectedItems().count()`. -/
def showContextMenuForListWidget (selected_count : Int) (p : FrameView) :
    Option (List MenuEntry) :=
  if selected_count = 0 then none
  else
    let contextMenu : List MenuEntry :=
      [MenuEntry.action (tr "Remove") true, MenuEntry.separator,
       MenuEntry.action (tr "Load heightmap") true,
       MenuEntry.action (tr "Reset heightmap") true, MenuEntry.separator,
       MenuEntry.action (tr "Load specular map") true,
       MenuEntry.action (tr "Reset specular map") true, MenuEntry.separator,
       MenuEntry.action (tr "Add new frames") true]
    if p.frames_count > 1 then
      let removeFrame := if p.animation_isActive then false else true
      let nextFrame := if p.animation_isActive then false else true
      let prevFrame := if p.animation_isActive then false else true
      let animation :=
        if p.animation_isActive then MenuEntry.action (tr "Stop Animation") true
        else MenuEntry.action (tr "Start Animation") true
      let nextFrame := if p.current_frame_id = p.frames_count - 1 then false else nextFrame
      let prevFrame :=
        if p.current_frame_id = p.frames_count - 1 then prevFrame
        else if p.current_frame_id = 0 then false else prevFrame
      some (contextMenu ++
        [MenuEntry.action (tr "Remove current frame") removeFrame, animation,
         MenuEntry.action (tr "Next Frame") nextFrame,
         MenuEntry.action (tr "Previous Frame") prevFrame])
    else some (contextMenu ++ [MenuEntry.action (tr "Split in frames") true])

/-- The argument that the branches "Next Frame" and "Previous Frame" of
`list_menu_action_triggered` pass to `p->set_current_frame_id`, for the action
text `option`; `none` for the other branches. -/
def frame_step (option : QString) (p : FrameView) : Option Int :=
  if option = tr "Next Frame" then some (p.current_frame_id + 1)
  else if option = tr "Previous Frame" then some (p.current_frame_id - 1)
  else none

/-! ## The view-mode combo box -/

/-- The enumerators of `ViewMode` (declared outside `main_window.cpp`). -/
inductive ViewMode where
  | Texture | NormalMap | SpecularMap | ParallaxMap | OcclusionMap | Preview
  deriving DecidableEq

/-- What `on_comboBoxView_currentIndexChanged` sets: the preview widget's
light switch, add-light mode and view mode, and the enabled and checked flags
of `actionAdd_Light`. -/
structure PreviewControls where
  light : Bool
  add_light : Bool
  view_mode : ViewMode
  actionAdd_Light_enabled : Bool
  actionAdd_Light_checked : Bool
  deriving DecidableEq

/-- The function `MainWindow::on_comboBoxView_currentIndexChanged(index)`;
`code` gives the integer value of each enumerator, and the `switch` takes the
case whose label equals `index`, if any. -/
def on_comboBoxView_currentIndexChanged (code : ViewMode → Int) (index : Int)
    (s : PreviewControls) : PreviewControls :=
  let s := { s with light := false }
  let s :=
    if index = code ViewMode.Preview then { s with actionAdd_Light_enabled := true }
    else { s with actionAdd_Light_enabled := false, add_light := false,
                  actionAdd_Light_checked := false }
  if index = code ViewMode.Texture then { s with view_mode := ViewMode.Texture }
  else if index = code ViewMode.NormalMap then { s with view_mode := ViewMode.NormalMap }
  else if index = code ViewMode.SpecularMap then { s with view_mode := ViewMode.SpecularMap }
  else if index = code ViewMode.ParallaxMap then { s with view_mode := ViewMode.ParallaxMap }
  else if index = code ViewMode.OcclusionMap then
    { s with view_mode := ViewMode.OcclusionMap }
  else if index = code ViewMode.Preview then
    { s with light := true, view_mode := ViewMode.Preview }
  else s

/-- Enumerator values in declaration order, for the worked examples. -/
def view_mode_code : ViewMode → Int
  | ViewMode.Texture => 0
  | ViewMode.NormalMap => 1
  | ViewMode.SpecularMap => 2
  | ViewMode.ParallaxMap => 3
  | ViewMode.OcclusionMap => 4
  | ViewMode.Preview => 5

/-! ## The parallax-type combo box -/

/-- The enumerators of `ParallaxType` (declared outside `main_window.cpp`). -/
inductive ParallaxType where
  | Binary | HeightMap | Quantization
  deriving DecidableEq

/-- The visibility of the parallax controls that
`on_comboBox_currentIndexChanged` sets, one flag per widget. -/
structure ParallaxControls where
  parallaxMinHeight : Bool
  parallaxSoftSlider : Bool
  parallaxFocusSlider : Bool
  parallaxThreshSlider : Bool
  checkBoxParallaxInvert : Bool
  parallaxQuantizationSlider : Bool
  sliderParallaxErodeDilate : Bool
  sliderParallaxBright : Bool
  sliderParallaxContrast : Bool
  labelErodeDilate : Bool
  labelBrightness : Bool
  labelContrast : Bool
  labelThreshMin : Bool
  labelThreshSoft : Bool
  labelThreshFocus : Bool
  labelThreshParallax : Bool
  labelQuantization : Bool
  deriving DecidableEq

/-- What `on_comboBox_currentIndexChanged` reads and sets of a processor: the
selected and connected flags and the parallax type (as its integer value). -/
structure ParallaxTarget where
  selected : Bool
  connected : Bool
  parallax_type : Int
  deriving DecidableEq

/-- The state that `on_comboBox_currentIndexChanged` acts on. -/
structure ParallaxPanel where
  listWidget_count : Int
  processorList : List ParallaxTarget
  sample_processor : ParallaxTarget
  controls : ParallaxControls
  deriving DecidableEq

/-- The `switch (ptype)` of `on_comboBox_currentIndexChanged`: the visibility of
the controls after it. -/
def parallax_controls (code : ParallaxType → Int) (ptype : Int) (c : ParallaxControls) :
    ParallaxControls :=
  if ptype = code ParallaxType.Binary then
    { parallaxMinHeight := true, parallaxSoftSlider := true, parallaxFocusSlider := true,
      parallaxThreshSlider := true, checkBoxParallaxInvert := true,
      parallaxQuantizationSlider := false, sliderParallaxErodeDilate := true,
      sliderParallaxBright := false, sliderParallaxContrast := false,
      labelErodeDilate := true, labelBrightness := false, labelContrast := false,
      labelThreshMin := true, labelThreshSoft := true, labelThreshFocus := true,
      labelThreshParallax := true, labelQuantization := false }
  else if ptype = code ParallaxType.HeightMap then
    { parallaxMinHeight := false, parallaxSoftSlider := true, parallaxFocusSlider := false,
      parallaxThreshSlider := false, checkBoxParallaxInvert := true,
      parallaxQuantizationSlider := false, sliderParallaxErodeDilate := false,
      sliderParallaxBright := true, sliderParallaxContrast := true,
      labelErodeDilate := false, labelBrightness := true, labelContrast := true,
      labelThreshMin := false, labelThreshSoft := true, labelThreshFocus := false,
      labelThreshParallax := false, labelQuantization := false }
  else if ptype = code ParallaxType.Quantization then
    { parallaxMinHeight := true, parallaxSoftSlider := true, parallaxFocusSlider := true,
      parallaxThreshSlider := true, checkBoxParallaxInvert := true,
      parallaxQuantizationSlider := true, sliderParallaxErodeDilate := false,
      sliderParallaxBright := true, sliderParallaxContrast := true,
      labelErodeDilate := false, labelBrightness := true, labelContrast := true,
      labelThreshMin := true, labelThreshSoft := true, labelThreshFocus := true,
      labelThreshParallax := true, labelQuantization := true }
  else c

/-- The function `MainWindow::on_comboBox_currentIndexChanged(index)`; `code`
gives the integer value of each enumerator of `ParallaxType`. -/
def on_comboBox_currentIndexChanged (code : ParallaxType → Int) (index : Int)
    (s : ParallaxPanel) : ParallaxPanel :=
  let ptype := index
  let s :=
    if s.listWidget_count > 0 then
      { s with processorList := s.processorList.map fun processor =>
          if processor.selected ∧ processor.connected then
            { processor with parallax_type := ptype }
          else processor }
    else { s with sample_processor := { s.sample_processor with parallax_type := ptype } }
  { s with controls := parallax_controls code ptype s.controls }

/-- Enumerator values in declaration order, for the worked examples. -/
def parallax_type_code : ParallaxType → Int
  | ParallaxType.Binary => 0
  | ParallaxType.HeightMap => 1
  | ParallaxType.Quantization => 2

/-- A panel with every parallax control hidden and no processor loaded. -/
def sample_panel : ParallaxPanel :=
  { listWidget_count := 0
    processorList := []
    sample_processor := { selected := true, connected := true, parallax_type := 0 }
    controls :=
      { parallaxMinHeight := false, parallaxSoftSlider := false,
        parallaxFocusSlider := false, parallaxThreshSlider := false,
        checkBoxParallaxInvert := false, parallaxQuantizationSlider := false,
        sliderParallaxErodeDilate := false, sliderParallaxBright := false,
        sliderParallaxContrast := false, labelErodeDilate := false,
        labelBrightness := false, labelContrast := false, labelThreshMin := false,
        labelThreshSoft := false, labelThreshFocus := false, labelThreshParallax := false,
        labelQuantization := false } }

/-! ## Selection of processors

Processors are referred to by pointer in `processor_selected` and in the
selection handler of the list widget; the state below keeps the pointers and,
for each pointer, the flags of the processor it points to.  The widget
assignments in the middle of `processor_selected` (sliders, check boxes, the
parallax combo box) change widget values, control visibility and processor
parameters, which are not part of this state. -/

/-- An `ImageProcessor *`. -/
abbrev Ptr := Nat

/-- What the selection code reads and sets of a processor: its name, its
selected and connected flags, and the length of its light list. -/
structure ProcFlags where
  name : QString
  selected : Bool
  connected : Bool
  light_count : Int
  deriving DecidableEq

/-- The state of the main window that selection acts on.  `processor` is the
member `this->processor` and `preview_processor` is
`ui->openGLPreviewWidget->processor`; `preview_processor_list` is the sequence
of `ui->openGLPreviewWidget->add_processor` calls since the last
`clear_processor_list`; `current_light_list` is the processor whose light list
was last handed to `set_current_light_list`; `rows` holds the `Qt::UserRole`
data of the list items by row, and `selectedItems` the rows of the selected
items. -/
structure Selection where
  heap : Ptr → ProcFlags
  processorList : List Ptr
  sample_processor : Ptr
  processor : Ptr
  preview_processor : Ptr
  preview_processor_list : List Ptr
  current_light_list : Option Ptr
  rows : List QString
  selectedItems : List Nat
  map_controls_enabled : Bool
  need_to_update : Bool

/-- The assignment `p->set_selected(b)`. -/
def set_selected (s : Selection) (p : Ptr) (b : Bool) : Selection :=
  { s with heap := Function.update s.heap p { s.heap p with selected := b } }

/-- The function `MainWindow::disconnect_processor(p)`, which ends with
`p->set_connected(false)`. -/
def disconnect_processor (s : Selection) (p : Ptr) : Selection :=
  { s with heap := Function.update s.heap p { s.heap p with connected := false } }

/-- The function `MainWindow::connect_processor(p)`, which ends with
`p->set_connected(true)`. -/
def connect_processor (s : Selection) (p : Ptr) : Selection :=
  { s with heap := Function.update s.heap p { s.heap p with connected := true } }

/-- The function `MainWindow::find_processor(name)`: the first processor of the
list with that name, or `nullptr`. -/
def find_processor (s : Selection) (name : QString) : Option Ptr :=
  s.processorList.find? fun p => (s.heap p).name = name

/-- The body of the loop of `processor_selected` that selects the processor
named by the single selected item. -/
def select_named (name : QString) (s : Selection) (p : Ptr) : Selection :=
  if (s.heap p).name = name then set_selected s p true else s

/-- The body of the loop of `processor_selected` that connects the selected
processors. -/
def connect_selected (s : Selection) (p : Ptr) : Selection :=
  if (s.heap p).selected = true then
    let s := connect_processor s p
    let s := if (s.heap p).light_count > 0 then { s with current_light_list := some p } else s
    { s with map_controls_enabled := true }
  else s

/-- The first part of `processor_selected(processor, selected)`: every processor
of the list is disconnected, the selected flag of `processor` is set, the map
controls are disabled and, when `selected`, both processor pointers are
assigned. -/
def processor_selected_assign (s : Selection) (processor : Ptr) (selected : Bool) :
    Selection :=
  let s := s.processorList.foldl disconnect_processor s
  let s := set_selected s processor selected
  let s := { s with map_controls_enabled := false }
  if selected = true then { s with preview_processor := processor, processor := processor }
  else s

/-- The second part of `processor_selected`: the processor named by a single
selected item is selected, the selected processors are connected, and the map
controls are enabled again when a processor is selected or the list is
empty. -/
def processor_selected_connect (s : Selection) : Selection :=
  let s :=
    if s.selectedItems.length = 1 then
      s.processorList.foldl (select_named (s.rows.getD (s.selectedItems.getD 0 0) [])) s
    else s
  let s := s.processorList.foldl connect_selected s
  let s :=
    if (s.heap s.sample_processor).selected = true then connect_processor s s.sample_processor
    else s
  if s.rows.length = 0 then { s with map_controls_enabled := true } else s

/-- The function `MainWindow::processor_selected(processor, selected)`. -/
def processor_selected (s : Selection) (processor : Ptr) (selected : Bool) : Selection :=
  processor_selected_connect (processor_selected_assign s processor selected)

/-- The inner `foreach` of `on_listWidget_itemSelectionChanged` for the row
with data `rowData`, over the selected items still to visit; it is left by
`break` once a processor was found and added. -/
def select_row (rowData : QString) : List Nat → Selection → Selection
  | [], s => s
  | item :: items, s =>
    if rowData = s.rows.getD item [] then
      match find_processor s (s.rows.getD item []) with
      | some p =>
        processor_selected
          { s with preview_processor_list := s.preview_processor_list ++ [p] } p true
      | none => select_row rowData items s
    else select_row rowData items s

/-- The branch of `on_listWidget_itemSelectionChanged` for a list with selected
items. -/
def select_rows (s : Selection) : Selection :=
  let s := processor_selected s s.sample_processor false
  let s := { s with preview_processor_list := [] }
  (List.range s.rows.length).foldl
    (fun s i => select_row (s.rows.getD i []) s.selectedItems s) s

/-- The function `MainWindow::on_listWidget_itemSelectionChanged`.  In the last
branch `setCurrentRow(0)` selects the first row, which runs the handler again
for that selection. -/
def on_listWidget_itemSelectionChanged (s : Selection) : Selection :=
  let s :=
    if s.rows.length = 0 then processor_selected s s.sample_processor true
    else if s.selectedItems.length > 0 then select_rows s
    else select_rows { s with selectedItems := [0] }
  { s with need_to_update := true }

/-- Two selection states agree on the processor list, the sample processor, the
rows, the selected items and the name of every processor. -/
def Selection.sameModel (a b : Selection) : Prop :=
  a.processorList = b.processorList ∧ a.sample_processor = b.sample_processor ∧
  a.rows = b.rows ∧ a.selectedItems = b.selectedItems ∧
  ∀ q, (a.heap q).name = (b.heap q).name

/-- Two selection states agree on both processor pointers, on the preview's
processor list and on what `sameModel` compares. -/
def Selection.sameFrame (a b : Selection) : Prop :=
  a.processor = b.processor ∧ a.preview_processor = b.preview_processor ∧
  a.preview_processor_list = b.preview_processor_list ∧ a.sameModel b

/-- The processors of the selected rows: for every row in row order, if the row
is selected and its data resolves to a processor, that processor. -/
def selected_processors (s : Selection) : List Ptr :=
  (List.range s.rows.length).filterMap fun i =>
    if i ∈ s.selectedItems then find_processor s (s.rows.getD i []) else none

/-- Flags of an unselected, unconnected processor without lights, by name. -/
def sample_flags (name : String) : ProcFlags :=
  { name := name.toList, selected := false, connected := false, light_count := 0 }

/-- Three processors: the sample processor at `0`, and two processors at `1`
and `2` that both carry the name `a(frames)`, as "Split in frames" names them
when it is run twice on the sprite `a`; the second of the two rows is
selected. -/
def twin_selection : Selection :=
  { heap := fun p => if p = 0 then sample_flags "" else sample_flags "a(frames)"
    processorList := [1, 2]
    sample_processor := 0
    processor := 0
    preview_processor := 0
    preview_processor_list := []
    current_light_list := none
    rows := ["a(frames)".toList, "a(frames)".toList]
    selectedItems := [1]
    map_controls_enabled := true
    need_to_update := false }

/-- Three processors with distinct names, the rows `b` and `c` selected. -/
def distinct_selection : Selection :=
  { heap := fun p =>
      if p = 0 then sample_flags ""
      else if p = 1 then sample_flags "a"
      else if p = 2 then sample_flags "b"
      else sample_flags "c"
    processorList := [1, 2, 3]
    sample_processor := 0
    processor := 0
    preview_processor := 0
    preview_processor_list := []
    current_light_list := none
    rows := ["a".toList, "b".toList, "c".toList]
    selectedItems := [2, 1]
    map_controls_enabled := true
    need_to_update := false }

/-! ## `MainWindow::open_files`, loading the files of one processor -/

/-- Qt function `QImage::isNull()`: the image has no pixels. -/
def QImage.isNull (img : QImage) : Bool :=
  decide (img.width = 0 ∨ img.height = 0)

/-- The variables of the loading loop of `open_files`: the new processor `p`,
the file watcher, the flag `loaded`, and the `p->loadImage(fileName, auximage)`
calls made so far. -/
structure LoadState (P : Type) where
  p : P
  fs_watcher : FsWatcher
  loaded : Bool
  loadImage_calls : List (QString × QImage)

/-- The loop `foreach (fileName, similarList)` of `open_files`. -/
def load_similar {P : Type} (api : ImageProcessorApi P) (fsys : FileSystem)
    (il : ImageLoader) : List QString → LoadState P → LoadState P
  | [], s => s
  | fileName :: rest, s =>
    if fileName ≠ [] then
      let auximage := (il fileName).1
      let succes := (il fileName).2
      let s := { s with loaded := s.loaded || succes }
      if succes = false ∨ auximage.isNull = true then load_similar api fsys il rest s
      else
        let auximage := auximage.convertToFormat
        load_similar api fsys il rest
          { s with
            p := api.loadImage fileName auximage s.p
            fs_watcher := FsWatcher.addPath fsys s.fs_watcher fileName
            loadImage_calls := s.loadImage_calls ++ [(fileName, auximage)] }
    else load_similar api fsys il rest s

/-- The end of the body of the outer loop of `open_files`, from
`bool loaded = false` on: `p` is the new processor after `set_name` and
`copy_settings`, and `similarList` the files to load into it.  The processor is
added by `add_processor(p)` (whose selection of the new row flags the preview
for update) when `loaded`, and deleted otherwise.  The second component lists
the `loadImage` calls made on `p`. -/
def open_files_load {P : Type} (api : ImageProcessorApi P) (fsys : FileSystem)
    (il : ImageLoader) (p : P) (similarList : List QString) (s : MainWindow P) :
    MainWindow P × List (QString × QImage) :=
  let r := load_similar api fsys il similarList
    { p := p, fs_watcher := s.fs_watcher, loaded := false, loadImage_calls := [] }
  if r.loaded = true then
    ({ processorList := s.processorList ++ [r.p], fs_watcher := r.fs_watcher,
       need_to_update := true }, r.loadImage_calls)
  else ({ s with fs_watcher := r.fs_watcher }, r.loadImage_calls)

/-- The file `/a/bad.png`. -/
def bad_png : QString := "/a/bad.png".toList

/-- A loader that reports success for `/a/bad.png` and returns the null
image. -/
def lenient_loader : ImageLoader := fun path =>
  if path = bad_png then (null_image, true) else (null_image, false)

/-- The processor that `open_files` creates for `/a/bad.png`, before any file is
loaded into it. -/
def bad_processor : ImageProcessor :=
  { name := "bad".toList, frames := [], current_frame_id := 0 }

/-! ## Further branches of `MainWindow::list_menu_action_triggered` -/

/-- Qt function `QFileSystemWatcher::removePath`. -/
def FsWatcher.removePath (w : FsWatcher) (path : QString) : FsWatcher :=
  w.filter fun q => q ≠ path

/-- Branch "Reset heightmap". -/
def reset_heightmap {P : Type} (api : ImageProcessorApi P) (il : ImageLoader)
    (s : P × FsWatcher) : P × FsWatcher :=
  let fs_watcher := FsWatcher.removePath s.2 (api.get_heightmap_path s.1)
  let height := (il (api.get_name s.1)).1
  let height := height.convertToFormat
  (api.loadHeightMap (api.get_name s.1) height s.1, fs_watcher)

/-- Branch "Reset specular map". -/
def reset_specular_map {P : Type} (api : ImageProcessorApi P) (il : ImageLoader)
    (s : P × FsWatcher) : P × FsWatcher :=
  let fs_watcher := FsWatcher.removePath s.2 (api.get_specular_path s.1)
  let specular := (il (api.get_name s.1)).1
  let specular := specular.convertToFormat
  (api.loadSpecularMap (api.get_name s.1) specular s.1, fs_watcher)

/-- Modelled from the spec: `remove_current_frame()` "fails (no-op) if only one
frame remains; otherwise removes and re-clamps the current index". -/
def ImageProcessor.remove_current_frame (p : ImageProcessor) : ImageProcessor :=
  if p.frames.length ≤ 1 then p
  else
    { p with
      frames := p.frames.eraseIdx p.current_frame_id
      current_frame_id := min p.current_frame_id (p.frames.length - 2) }

/-- The field `get_current_frame()->fileName`. -/
def ImageProcessor.current_fileName (p : ImageProcessor) : QString :=
  (p.frames.get? p.current_frame_id).elim [] Sprite.fileName

/-- Branch "Remove current frame". -/
def remove_current_frame (s : ImageProcessor × FsWatcher) : ImageProcessor × FsWatcher :=
  let p := s.1.remove_current_frame
  (p, FsWatcher.removePath s.2 p.current_fileName)

/-- The file `/a/f_1.png`. -/
def f1_png : QString := "/a/f_1.png".toList

/-- The file `/a/f_2.png`. -/
def f2_png : QString := "/a/f_2.png".toList

/-- A sprite `f` of two frames, loaded from `/a/f_1.png` and `/a/f_2.png`, with
the first frame current. -/
def two_frame_processor : ImageProcessor :=
  { name := "f".toList
    frames :=
      [{ fileName := f1_png, image := old_image, heightmapPath := [],
         heightmap := old_image, specularPath := [], specular := old_image },
       { fileName := f2_png, image := new_image, heightmapPath := [],
         heightmap := new_image, specularPath := [], specular := new_image }]
    current_frame_id := 0 }

/-! ## Exporting the preview -/

/-- The view-mode combo box with the controls that its handler sets. -/
structure ViewState where
  comboBoxView : Int
  controls : PreviewControls
  deriving DecidableEq

/-- Qt function `QComboBox::setCurrentIndex` on `comboBoxView`: when the index
changes, `on_comboBoxView_currentIndexChanged` runs. -/
def ViewState.setCurrentIndex (code : ViewMode → Int) (index : Int) (s : ViewState) :
    ViewState :=
  if s.comboBoxView = index then s
  else
    { comboBoxView := index
      controls := on_comboBoxView_currentIndexChanged code index s.controls }

/-- The function `MainWindow::on_actionExportPreview_triggered`; `fileName` is
what the save dialog returned. -/
def on_actionExportPreview_triggered (code : ViewMode → Int) (fileName : QString)
    (s : ViewState) : ViewState :=
  let current_view := s.comboBoxView
  let s := s.setCurrentIndex code (code ViewMode.Preview)
  if fileName = [] then s
  else s.setCurrentIndex code current_view

/-- The normal-map view, as the combo box and the preview show it. -/
def normal_map_view : ViewState :=
  { comboBoxView := 1
    controls :=
      { light := false, add_light := false, view_mode := ViewMode.NormalMap,
        actionAdd_Light_enabled := false, actionAdd_Light_checked := false } }

/-! ## Geometry of rectangles -/

/-- The pixel `(x, y)` lies in the rectangle. -/
def QRect.contains (r : QRect) (x y : Nat) : Prop :=
  r.x ≤ x ∧ x < r.x + r.width ∧ r.y ≤ y ∧ y < r.y + r.height

/-- The rectangle lies inside an image of size `W × H`. -/
def QRect.inside (r : QRect) (W H : Nat) : Prop :=
  r.x + r.width ≤ W ∧ r.y + r.height ≤ H

/-- Two rectangles have no pixel in common. -/
def QRect.disjoint (a b : QRect) : Prop :=
  ∀ x y, ¬ (a.contains x y ∧ b.contains x y)

/-- The selection state once the sample processor at `0` has been selected and
connected (as `openGL_initialized` leaves it) and the file `a` has been opened:
the list holds the processor at `1`, whose row is selected. -/
def opened_selection : Selection :=
  { heap := fun p =>
      if p = 0 then { name := [], selected := true, connected := true, light_count := 0 }
      else sample_flags "a"
    processorList := [1]
    sample_processor := 0
    processor := 0
    preview_processor := 0
    preview_processor_list := [0]
    current_light_list := none
    rows := ["a".toList]
    selectedItems := [0]
    map_controls_enabled := true
    need_to_update := false }

/-! ## Renaming loops

The loops `while (taken(name)) name = candidate(++i);` of `open_files` and of
`on_pushButtonExportTo_clicked`, run with a bound on the number of tests of the
loop condition: `none` means that the bound was reached before the loop
ended. -/

/-- The loop `int i = 1; while (taken(name)) name = candidate(++i);`, started
with the counter at `i`; the result is the final `name`. -/
def rename_while (taken : QString → Bool) (candidate : Nat → QString) :
    Nat → QString → Nat → Option QString
  | 0, _, _ => none
  | fuel + 1, name, i =>
    if taken name = true then rename_while taken candidate fuel (candidate (i + 1)) (i + 1)
    else some name

/-- The name `info.baseName() + " (" + QString::number(i) + ")"`. -/
def open_files_candidate (baseName : QString) (i : Nat) : QString :=
  baseName ++ " (".toList ++ toDecimal i ++ ")".toList

/-- The renaming loop of `open_files`: `items` are the texts of the items of the
list widget, `name` is the name before the loop. -/
def open_files_name (items : List QString) (baseName name : QString) (fuel : Nat) :
    Option QString :=
  rename_while (fun n => decide (n ∈ items)) (open_files_candidate baseName) fuel name 1

/-- Qt function `QFileInfo::fileName()`: the part after the last `/`. -/
def QFileInfo.fileName (path : QString) : QString :=
  (split '/' path).getLastD []

/-- Qt function `QFileInfo::baseName()`: the file name up to its first `.`. -/
def QFileInfo.baseName (path : QString) : QString :=
  (QFileInfo.fileName path).takeWhile fun c => c ≠ '.'

/-- Qt function `QFileInfo::completeSuffix()`: the file name after its first
`.`. -/
def QFileInfo.completeSuffix (path : QString) : QString :=
  ((QFileInfo.fileName path).dropWhile fun c => c ≠ '.').drop 1

/-- The name `path + "/" + info.baseName() + "(" + QString::number(i) + ")" +
ending + suffix` of the export loops, where `ending` is `_n.`, `_p.`, `_s.` or
`_o.`. -/
def export_candidate (path baseName ending suffix : QString) (i : Nat) : QString :=
  path ++ "/".toList ++ baseName ++ "(".toList ++ toDecimal i ++ ")".toList ++ ending ++
    suffix

/-- The renaming loop of one map of `on_pushButtonExportTo_clicked`: `files` are
the paths for which `QFileInfo::exists` holds. -/
def export_name (files : List QString) (path baseName ending suffix : QString)
    (fuel : Nat) : Option QString :=
  rename_while (fun n => decide (n ∈ files)) (export_candidate path baseName ending suffix)
    fuel (path ++ "/".toList ++ baseName ++ ending ++ suffix) 1

/-- The state of an export: the existing files, and for each `n.save(name)` so
far the name together with the files that existed when it was chosen. -/
structure ExportState where
  files : List QString
  saved : List (QString × List QString)

/-- The loop `foreach (ImageProcessor *p, processorList)` of one map kind;
`names` are the names `p->get_name()` of the processors and `saves` tells
whether `n.save(name)` writes the file. -/
def export_kind (saves : QString → Bool) (path ending : QString) :
    List QString → ExportState → Option ExportState
  | [], s => some s
  | pname :: rest, s =>
    match export_name s.files path (QFileInfo.baseName pname) ending
        (QFileInfo.completeSuffix pname) (s.files.length + 2) with
    | none => none
    | some name =>
      export_kind saves path ending rest
        { files := if saves name = true then name :: s.files else s.files
          saved := s.saved ++ [(name, s.files)] }

/-- The check boxes of the export dock. -/
structure ExportChecks where
  checkBoxExportNormal : Bool
  checkBoxExportParallax : Bool
  checkBoxExportSpecular : Bool
  checkBoxExportOcclusion : Bool

/-- The function `MainWindow::on_pushButtonExportTo_clicked`, for the four map
kinds (the preview is exported by the preview widget afterwards); `path` is the
directory that the dialog returned. -/
def on_pushButtonExportTo_clicked (saves : QString → Bool) (checks : ExportChecks)
    (path : QString) (names : List QString) (s : ExportState) : Option ExportState :=
  if path ≠ [] then
    (if checks.checkBoxExportNormal = true then
        export_kind saves path "_n.".toList names s else some s).bind fun s =>
    (if checks.checkBoxExportParallax = true then
        export_kind saves path "_p.".toList names s else some s).bind fun s =>
    (if checks.checkBoxExportSpecular = true then
        export_kind saves path "_s.".toList names s else some s).bind fun s =>
    if checks.checkBoxExportOcclusion = true then
      export_kind saves path "_o.".toList names s else some s
  else some s

/-! ## "Split in frames" as an action on the processor list -/

/-- Qt function `QImage::copy(rect)`: the whole image for a null rectangle, a
null image for a rectangle without width or without height, and otherwise the
pixels of the rectangle in row-major order, `0` where it leaves the image. -/
def QImage.copy (img : QImage) (r : QRect) : QImage :=
  if r.width = 0 ∧ r.height = 0 then img
  else if r.width = 0 ∨ r.height = 0 then
    { width := 0, height := 0, premultiplied := false, pixels := [] }
  else
    { width := r.width
      height := r.height
      premultiplied := img.premultiplied
      pixels := (List.range r.height).flatMap fun y =>
        (List.range r.width).map fun x =>
          if r.x + x < img.width ∧ r.y + y < img.height then
            img.pixels.getD ((r.y + y) * img.width + (r.x + x)) 0
          else 0 }

/-- The diffuse image of the current frame,
`p->get_current_frame()->get_image(TextureTypes::Diffuse, &original)`. -/
def ImageProcessor.current_image (p : ImageProcessor) : QImage :=
  (p.frames.get? p.current_frame_id).elim
    { width := 0, height := 0, premultiplied := false, pixels := [] } Sprite.image

/-- The function `MainWindow::add_processor(p)` on the processor list: the
processor is appended, and the selection of its new row flags the preview for
update. -/
def add_processor (p : ImageProcessor) (s : MainWindow ImageProcessor) :
    MainWindow ImageProcessor :=
  { s with processorList := s.processorList ++ [p], need_to_update := true }

/-- Branch "Split in frames" of `list_menu_action_triggered`, for the processor
`p` of the current item and the numbers that the `FrameSplitter` dialog
returned. -/
def split_in_frames_action (p : ImageProcessor) (h_frames v_frames : Int)
    (s : MainWindow ImageProcessor) : MainWindow ImageProcessor :=
  if h_frames > 0 ∧ v_frames > 0 then
    let original := p.current_image
    let n_p : ImageProcessor :=
      { name := p.name ++ "(frames)".toList, frames := [], current_frame_id := 0 }
    let filePath := p.current_fileName
    let n_p := (split_in_frames filePath original.width original.height h_frames
      v_frames).foldl (fun q c => q.loadImage c.1 (original.copy c.2)) n_p
    add_processor n_p s
  else s

/-- The `loadImage` calls that "Split in frames" makes on the new processor,
in call order, each with its two arguments: the path and the image
`original.copy(QRect(top_left, size))`. -/
def split_in_frames_calls (filePath : QString) (original : QImage)
    (h_frames v_frames : Int) : List (QString × QImage) :=
  (split_in_frames filePath original.width original.height h_frames v_frames).map
    fun c => (c.1, original.copy c.2)

/-- A `4 × 2` image with eight different pixels. -/
def strip_image : QImage :=
  { width := 4, height := 2, premultiplied := true, pixels := [1, 2, 3, 4, 5, 6, 7, 8] }

/-- A processor whose one frame is the `4 × 2` image, loaded from
`/a/sprite.png`. -/
def strip_processor : ImageProcessor :=
  { name := "sprite".toList
    frames := [{ fileName := sprite_png, image := strip_image, heightmapPath := [],
                 heightmap := strip_image, specularPath := [], specular := strip_image }]
    current_frame_id := 0 }

/-! ## `MainWindow::open_files`, the outer loop -/

/-- What the outer loop of `open_files` obtains from outside for a file name:
the files with a similar name that the auto-loading block finds in its folder
(empty when the file name has no text before its number), the text before the
number, and the answer to "Load as Animation?" (`true` for Yes). -/
structure OpenFilesEnv where
  similar : QString → List QString
  beforeNumber : QString → QString
  reply : QString → Bool

/-- One processor that `open_files` creates: the file name it was created for,
the name before the renaming loop, and the files to load into it. -/
structure FileGroup where
  fileName : QString
  name : QString
  similarList : List QString
  deriving DecidableEq

/-- The outer loop of `open_files` up to the creation of the processor, with the
lists `similarFiles` and `checkedFiles`: the processors to create, in order. -/
def open_files_groups (env : OpenFilesEnv) :
    List QString → List QString → List QString → List FileGroup
  | [], _, _ => []
  | fileName :: rest, similarFiles, checkedFiles =>
    if fileName ∈ similarFiles then open_files_groups env rest similarFiles checkedFiles
    else
      let similarList := if fileName ∉ checkedFiles then env.similar fileName else []
      let name := QFileInfo.baseName fileName
      let similarList := if similarList.length = 0 then [fileName] else similarList
      if similarList.length > 1 then
        if env.reply fileName = false then
          { fileName := fileName, name := name, similarList := [fileName] } ::
            open_files_groups env rest similarFiles similarList
        else
          { fileName := fileName, name := env.beforeNumber fileName,
            similarList := similarList } ::
            open_files_groups env rest similarList checkedFiles
      else
        { fileName := fileName, name := name, similarList := similarList } ::
          open_files_groups env rest similarFiles checkedFiles

/-- The function `MainWindow::open_files(fileNames)`: for each processor to
create, the renaming loop over the names in the list, the loading loop, and
`add_processor` or `delete`.  `new_processor name` is the new processor after
`set_name(name)` and `copy_settings`. -/
def open_files {P : Type} (api : ImageProcessorApi P) (fsys : FileSystem) (il : ImageLoader)
    (env : OpenFilesEnv) (new_processor : QString → P) (fileNames : List QString)
    (s : MainWindow P) : MainWindow P :=
  (open_files_groups env fileNames [] []).foldl
    (fun s g =>
      let items := s.processorList.map api.get_name
      let name := (open_files_name items (QFileInfo.baseName g.fileName) g.name
        (items.length + 2)).getD g.name
      (open_files_load api fsys il (new_processor name) g.similarList s).1)
    s

/-- The file `/a/a1.png`. -/
def a1_png : QString := "/a/a1.png".toList

/-- The file `/a/a2.png`. -/
def a2_png : QString := "/a/a2.png".toList

/-- The file `/a/b1.png`. -/
def b1_png : QString := "/a/b1.png".toList

/-- The file `/a/b2.png`. -/
def b2_png : QString := "/a/b2.png".toList

/-- A folder with the animations `a1`, `a2` and `b1`, `b2`, and a user who
answers Yes. -/
def two_animations : OpenFilesEnv :=
  { similar := fun f =>
      if f = a1_png ∨ f = a2_png then [a1_png, a2_png]
      else if f = b1_png ∨ f = b2_png then [b1_png, b2_png]
      else []
    beforeNumber := fun f =>
      if f = a1_png ∨ f = a2_png then "a".toList
      else if f = b1_png ∨ f = b2_png then "b".toList
      else []
    reply := fun _ => true }

/-- A loader for which every file decodes to `old_image`. -/
def any_loader : ImageLoader := fun _ => (old_image, true)

/-- The new processor of the given name, without frames. -/
def new_processor (name : QString) : ImageProcessor :=
  { name := name, frames := [], current_frame_id := 0 }

/-! ## Row-major enumeration of a nested loop -/

theorem length_flatMap_range_map {α : Type} (f : Nat → Nat → α) (h v : Nat) :
    ((List.range v).flatMap fun i => (List.range h).map (f i)).length = v * h := by
  induction v with
  | zero => simp
  | succ v ih =>
    rw [List.range_succ, List.flatMap_append, List.length_append, ih]
    simp [Nat.succ_mul]

theorem getElem?_flatMap_range_map {α : Type} (f : Nat → Nat → α) (h v i j : Nat)
    (hi : i < v) (hj : j < h) :
    ((List.range v).flatMap fun i => (List.range h).map (f i))[j + i * h]? = some (f i j) := by
  induction v with
  | zero => omega
  | succ v ih =>
    rw [List.range_succ, List.flatMap_append]
    by_cases hiv : i < v
    · have hlt : j + i * h < v * h := by
        have : (i + 1) * h ≤ v * h := Nat.mul_le_mul_right h hiv
        rw [Nat.succ_mul] at this
        omega
      rw [List.getElem?_append_left (by rw [length_flatMap_range_map]; exact hlt)]
      exact ih hiv
    · have hiv2 : i = v := by omega
      subst hiv2
      rw [List.getElem?_append_right (by rw [length_flatMap_range_map]; omega),
        length_flatMap_range_map]
      simp [hj]

theorem split_in_frames_cells (filePath : QString) (W H h v : Nat)
    (hh : 0 < h) (hv : 0 < v) :
    (split_in_frames filePath W H h v).length = h * v ∧
    ∀ i j, i < v → j < h →
      (split_in_frames filePath W H h v)[j + i * h]? =
        some (frame_path filePath h v i j, frame_rect W H h v i j) := by
  have hg : ((h : Int) > 0 ∧ (v : Int) > 0) := ⟨by exact_mod_cast hh, by exact_mod_cast hv⟩
  simp only [split_in_frames, hg, and_self, if_true, Int.toNat_ofNat]
  refine ⟨?_, ?_⟩
  · rw [length_flatMap_range_map, Nat.mul_comm]
  · intro i j hi hj
    rw [getElem?_flatMap_range_map _ h v i j hi hj]

/-! ## Decimal text and zero padding -/

theorem toDecimal_length (n : Nat) : (toDecimal n).length = Nat.log 10 n + 1 := by
  unfold toDecimal
  by_cases hn : n = 0
  · subst hn; simp
  · simp [hn, Nat.digits_len 10 n (by norm_num) hn]

theorem digits_length_le_of_lt_pow (w n : Nat) (h : n < 10 ^ w) :
    (Nat.digits 10 n).length ≤ w := by
  by_cases hn : n = 0
  · subst hn; simp
  · rw [Nat.digits_len 10 n (by norm_num) hn]
    exact Nat.log_lt_of_lt_pow hn h

theorem zeroPadded_length (w n : Nat) (h : n < 10 ^ w) : (zeroPadded w n).length = w := by
  have := digits_length_le_of_lt_pow w n h
  simp [zeroPadded]
  omega

theorem zeroPadded_succ (w n : Nat) :
    zeroPadded (w + 1) n = zeroPadded w (n / 10) ++ [Nat.digitChar (n % 10)] := by
  by_cases hn : n = 0
  · subst hn
    simp [zeroPadded, List.replicate_succ']
    rfl
  · rw [zeroPadded, zeroPadded, Nat.digits_eq_cons_digits_div (by norm_num) hn]
    simp [Nat.add_sub_add_right]

theorem arg_eq_zeroPadded (w n : Nat) (hw : 0 < w) : arg n w '0' = zeroPadded w n := by
  unfold arg toDecimal zeroPadded
  by_cases hn : n = 0
  · subst hn
    obtain ⟨k, rfl⟩ : ∃ k, w = k + 1 := ⟨w - 1, by omega⟩
    simp [List.replicate_succ']
  · simp [hn]

theorem digitChar_lt (a b : Nat) (hab : a < b) (hb : b < 10) :
    Nat.digitChar a < Nat.digitChar b := by
  interval_cases b <;> interval_cases a <;> decide

/-! ## Lexicographic order -/

theorem lex_append_of_length_eq {α : Type} (r : α → α → Prop) {a b : List α}
    (hlt : List.Lex r a b) (hlen : a.length = b.length) (x y : List α) :
    List.Lex r (a ++ x) (b ++ y) := by
  induction hlt with
  | nil => simp at hlen
  | cons _ ih =>
    simp only [List.length_cons, Nat.add_right_cancel_iff] at hlen
    exact List.Lex.cons (ih hlen)
  | rel h => exact List.Lex.rel h

theorem zeroPadded_lex (w : Nat) :
    ∀ a b : Nat, a < b → b < 10 ^ w →
      List.Lex (fun c d : Char => c < d) (zeroPadded w a) (zeroPadded w b) := by
  induction w with
  | zero => intro a b hab hb; simp at hb; omega
  | succ w ih =>
    intro a b hab hb
    rw [zeroPadded_succ, zeroPadded_succ]
    have hb10 : b / 10 < 10 ^ w := by
      rw [Nat.div_lt_iff_lt_mul (by norm_num)]
      rw [pow_succ] at hb
      exact hb
    rcases Nat.lt_or_ge (a / 10) (b / 10) with hlt | hge
    · have ha10 : a / 10 < 10 ^ w := lt_trans hlt hb10
      exact lex_append_of_length_eq _ (ih _ _ hlt hb10)
        (by rw [zeroPadded_length w _ ha10, zeroPadded_length w _ hb10]) _ _
    · have heq : a / 10 = b / 10 := le_antisymm (Nat.div_le_div_right hab.le) hge
      rw [heq]
      apply List.Lex.append_left
      apply List.Lex.rel
      apply digitChar_lt
      · omega
      · omega

/-! ## `split` and `join` -/

theorem split_ne_nil (sep : Char) (s : QString) : split sep s ≠ [] := by
  cases s with
  | nil => simp [split]
  | cons c cs =>
    unfold split
    split_ifs
    · simp
    · split <;> simp

theorem split_of_not_mem (sep : Char) (s : QString) (h : sep ∉ s) : split sep s = [s] := by
  induction s with
  | nil => rfl
  | cons c cs ih =>
    have hc : c ≠ sep := fun e => h (by simp [e])
    have hcs : sep ∉ cs := fun e => h (List.mem_cons_of_mem _ e)
    rw [split, if_neg hc, ih hcs]

theorem join_cons_cons (c : Char) (p : QString) (ps : List QString) (sep : QString) :
    join ((c :: p) :: ps) sep = c :: join (p :: ps) sep := by
  cases ps <;> simp [join, List.intercalate, List.intersperse]

theorem join_nil_cons (ps : List QString) (hps : ps ≠ []) (sep : QString) :
    join ([] :: ps) sep = sep ++ join ps sep := by
  cases ps with
  | nil => exact absurd rfl hps
  | cons q qs => simp [join, List.intercalate, List.intersperse]

theorem join_split_append (pre tl sep : QString) (h : '.' ∉ pre) :
    join (split '.' (pre ++ '.' :: tl)) sep = pre ++ (sep ++ join (split '.' tl) sep) := by
  induction pre with
  | nil =>
    simp only [List.nil_append, split, if_true]
    exact join_nil_cons _ (split_ne_nil _ _) _
  | cons c cs ih =>
    have hc : c ≠ '.' := fun e => h (by simp [e])
    have hcs : '.' ∉ cs := fun e => h (List.mem_cons_of_mem _ e)
    rw [List.cons_append, split, if_neg hc]
    rcases hsp : split '.' (cs ++ '.' :: tl) with _ | ⟨q, qs⟩
    · exact absurd hsp (split_ne_nil _ _)
    · simp only
      rw [join_cons_cons, ← hsp, ih hcs, List.cons_append]

/-- For a file path without a `.`, the synthetic path of every cell is the file
path itself. -/
theorem frame_path_of_no_dot (filePath : QString) (h v i j : Nat) (hdot : '.' ∉ filePath) :
    frame_path filePath h v i j = filePath := by
  unfold frame_path
  rw [split_of_not_mem _ _ hdot]
  simp [join, List.intercalate, List.intersperse]

/-- Two synthetic paths of one file path that has a `.` compare as their
indices do. -/
theorem frame_path_lex (filePath : QString) (w a b : Nat) (hdot : '.' ∈ filePath)
    (hw : 0 < w) (hab : a < b) (hb : b < 10 ^ w) :
    List.Lex (fun c d : Char => c < d)
      (join (split '.' filePath) ('_' :: arg a w '0' ++ ['.']))
      (join (split '.' filePath) ('_' :: arg b w '0' ++ ['.'])) := by
  obtain ⟨pre, tl, rfl, hpre⟩ := List.eq_append_cons_of_mem hdot
  rw [join_split_append _ _ _ hpre, join_split_append _ _ _ hpre]
  apply List.Lex.append_left
  simp only [List.cons_append, List.append_assoc]
  apply List.Lex.cons
  rw [arg_eq_zeroPadded w a hw, arg_eq_zeroPadded w b hw]
  exact lex_append_of_length_eq _ (zeroPadded_lex w a b hab hb)
    (by rw [zeroPadded_length w a (lt_trans hab hb), zeroPadded_length w b hb]) _ _

/-! ## The names generated by "Split in frames" -/

theorem split_in_frames_names (filePath : QString) (W H h v : Nat) (hh : 0 < h) (hv : 0 < v) :
    (split_in_frames filePath W H h v).map Prod.fst =
      (List.range (h * v)).map fun k =>
        join (split '.' filePath) ('_' :: arg k (log10_plus_one (v * h)) '0' ++ ['.']) := by
  obtain ⟨hlen, hget⟩ := split_in_frames_cells filePath W H h v hh hv
  apply List.ext_getElem?
  intro n
  by_cases hn : n < h * v
  · have hj : n % h < h := Nat.mod_lt _ hh
    have hi : n / h < v := by
      rw [Nat.div_lt_iff_lt_mul hh, Nat.mul_comm]; exact hn
    have hidx : n % h + n / h * h = n := by
      rw [Nat.mul_comm, Nat.add_comm]; exact Nat.div_add_mod n h
    have := hget (n / h) (n % h) hi hj
    rw [hidx] at this
    simp [List.getElem?_map, this, List.getElem?_range hn, frame_path, frame_number, hidx]
  · have h1 : (List.map Prod.fst (split_in_frames filePath W H h v)).length ≤ n := by
      rw [List.length_map, hlen]; omega
    have h2 : ((List.range (h * v)).map fun k =>
        join (split '.' filePath)
          ('_' :: arg k (log10_plus_one (v * h)) '0' ++ ['.'])).length ≤ n := by
      rw [List.length_map, List.length_range]; omega
    rw [List.getElem?_eq_none h1, List.getElem?_eq_none h2]

/-- For a source file path that contains a `.`, the synthetic file names, in
row-major cell order, are strictly increasing in lexicographic order. -/
theorem split_in_frames_names_increasing (filePath : QString) (W H h v : Nat)
    (hh : 0 < h) (hv : 0 < v) (hdot : '.' ∈ filePath) :
    List.Pairwise (List.Lex (fun c d : Char => c < d))
      ((split_in_frames filePath W H h v).map Prod.fst) := by
  rw [split_in_frames_names filePath W H h v hh hv, List.pairwise_map]
  refine List.Pairwise.imp_of_mem ?_ (List.pairwise_lt_range (h * v))
  intro a b _ hb hab
  rw [List.mem_range] at hb
  apply frame_path_lex filePath _ a b hdot (Nat.succ_pos _) hab
  have : b < v * h := by rw [Nat.mul_comm]; exact hb
  exact lt_trans this (Nat.lt_pow_succ_log_self (by norm_num) _)

theorem split_in_frames_names_increasing_witness :
    0 < 3 ∧ 0 < 2 ∧ '.' ∈ ['a', '.', 'b'] ∧
    List.Pairwise (List.Lex (fun c d : Char => c < d))
      ((split_in_frames ['a', '.', 'b'] 10 7 (3 : Nat) (2 : Nat)).map Prod.fst) :=
  ⟨by decide, by decide, by decide,
    split_in_frames_names_increasing ['a', '.', 'b'] 10 7 3 2 (by decide) (by decide)
      (by decide)⟩

/-- Claim C2, failing input. For the source file path `sprite`, which has no
`.`, and a grid of `2 × 1` cells, both cells receive the synthetic file name
`sprite`, so the names are not strictly increasing. -/
theorem split_in_frames_names_no_dot :
    (split_in_frames ['s', 'p', 'r', 'i', 't', 'e'] 4 4 2 1).map Prod.fst =
      [['s', 'p', 'r', 'i', 't', 'e'], ['s', 'p', 'r', 'i', 't', 'e']] ∧
    ¬ List.Pairwise (List.Lex (fun c d : Char => c < d))
      ((split_in_frames ['s', 'p', 'r', 'i', 't', 'e'] 4 4 2 1).map Prod.fst) := by
  have hnames : (split_in_frames ['s', 'p', 'r', 'i', 't', 'e'] 4 4 2 1).map Prod.fst =
      [['s', 'p', 'r', 'i', 't', 'e'], ['s', 'p', 'r', 'i', 't', 'e']] := by
    have hdot : '.' ∉ ['s', 'p', 'r', 'i', 't', 'e'] := by decide
    simp [split_in_frames, List.range_succ, frame_path_of_no_dot _ _ _ _ _ hdot]
  refine ⟨hnames, ?_⟩
  rw [hnames]
  decide

/-! ## The padding width -/

/-- Claim C3, as the code has it. For `h > 0`, `v > 0` and every cell `(i, j)`,
the index `j + i * h` embedded in the synthetic file name is its decimal text
padded on the left with zeros to exactly as many characters as the cell count
`h * v` has decimal digits.  That number is the number of digits of the largest
index `h * v - 1`, except when `h * v` is a power of ten `10 ^ (k + 1)`, where
it is one more. -/
theorem frame_number_width (h v i j : Nat) (hh : 0 < h) (hv : 0 < v) (hi : i < v)
    (hj : j < h) :
    frame_number h v i j =
      List.replicate ((toDecimal (h * v)).length - (toDecimal (j + i * h)).length) '0' ++
        toDecimal (j + i * h) ∧
    (frame_number h v i j).length = (toDecimal (h * v)).length ∧
    ((∀ k, h * v ≠ 10 ^ (k + 1)) →
      (toDecimal (h * v)).length = (toDecimal (h * v - 1)).length) ∧
    (∀ k, h * v = 10 ^ (k + 1) →
      (toDecimal (h * v)).length = (toDecimal (h * v - 1)).length + 1) := by
  have hidx : j + i * h < h * v := by
    have : (i + 1) * h ≤ v * h := Nat.mul_le_mul_right h hi
    rw [Nat.succ_mul] at this
    rw [Nat.mul_comm h v]; omega
  have hpos : h * v ≠ 0 := by positivity
  refine ⟨?_, ?_, ?_, ?_⟩
  · simp [frame_number, arg, log10_plus_one, toDecimal_length, Nat.mul_comm]
  · have hle : Nat.log 10 (j + i * h) ≤ Nat.log 10 (h * v) := Nat.log_mono_right hidx.le
    simp only [frame_number, arg, log10_plus_one, toDecimal_length, List.length_append,
      List.length_replicate, Nat.mul_comm v h]
    omega
  · intro hk
    rw [toDecimal_length, toDecimal_length]
    congr 1
    by_cases h1 : h * v = 1
    · rw [h1]; simp
    · have hne : h * v - 1 ≠ 0 := by omega
      symm
      rw [Nat.log_eq_iff (Or.inr ⟨by norm_num, hne⟩)]
      have hlow := Nat.pow_log_le_self 10 hpos
      have hup := Nat.lt_pow_succ_log_self (b := 10) (by norm_num) (h * v)
      generalize Nat.log 10 (h * v) = L at hlow hup ⊢
      refine ⟨?_, by rw [Nat.succ_eq_add_one] at hup; omega⟩
      cases L with
      | zero => simp; omega
      | succ k =>
        have := hk k
        omega
  · intro k hk
    rw [toDecimal_length, toDecimal_length, hk, Nat.log_pow (by norm_num)]
    have hne : 10 ^ (k + 1) - 1 ≠ 0 := by
      have : 10 ≤ 10 ^ (k + 1) := by
        calc 10 = 10 ^ 1 := by norm_num
          _ ≤ 10 ^ (k + 1) := Nat.pow_le_pow_right (by norm_num) (by omega)
      omega
    have : Nat.log 10 (10 ^ (k + 1) - 1) = k := by
      rw [Nat.log_eq_iff (Or.inr ⟨by norm_num, hne⟩)]
      have hk1 : 0 < 10 ^ k := by positivity
      have hk2 : 10 ^ (k + 1) = 10 * 10 ^ k := by rw [pow_succ, Nat.mul_comm]
      omega
    rw [this]

theorem frame_number_width_witness :
    0 < 10 ∧ 0 < 1 ∧ 0 < 1 ∧ 3 < 10 ∧
    (frame_number 10 1 0 3 =
      List.replicate ((toDecimal (10 * 1)).length - (toDecimal (3 + 0 * 10)).length) '0' ++
        toDecimal (3 + 0 * 10) ∧
    (frame_number 10 1 0 3).length = (toDecimal (10 * 1)).length ∧
    ((∀ k, 10 * 1 ≠ 10 ^ (k + 1)) →
      (toDecimal (10 * 1)).length = (toDecimal (10 * 1 - 1)).length) ∧
    (∀ k, 10 * 1 = 10 ^ (k + 1) →
      (toDecimal (10 * 1)).length = (toDecimal (10 * 1 - 1)).length + 1)) :=
  ⟨by decide, by decide, by decide, by decide,
    frame_number_width 10 1 0 3 (by decide) (by decide) (by decide) (by decide)⟩

/-- Claim C3, counterexample. With a grid of `10 × 1` cells the largest index is
`9`, written with one digit, yet the index of cell `(0, 3)` is embedded as the
two characters `03`. -/
theorem frame_number_width_ten_cells :
    frame_number 10 1 0 3 = ['0', '3'] ∧ toDecimal (10 * 1 - 1) = ['9'] ∧
    (frame_number 10 1 0 3).length ≠ (toDecimal (10 * 1 - 1)).length := by
  have h1 : frame_number 10 1 0 3 = ['0', '3'] := by
    simp [frame_number, arg, toDecimal, log10_plus_one, Nat.log]
    decide
  have h2 : toDecimal (10 * 1 - 1) = ['9'] := by
    simp [toDecimal]
    decide
  refine ⟨h1, h2, ?_⟩
  rw [h1, h2]
  decide

/-! ## File notifications -/

/-- Claim C4, failing input. The processor that `open_files` builds for
`/a/sprite.png` is named `sprite` (`set_name(info.baseName())`) and its frame,
loaded by `loadImage`, has the diffuse source `/a/sprite.png`.  When that file
changes on disk (it exists, is not empty and decodes to `new_image`),
`onFileChanged` leaves the processor exactly as it was, with the old image,
although `loadImage` would have replaced the frame's image. -/
theorem onFileChanged_misses_diffuse_source :
    ImageProcessor.loadImage sprite_png old_image
      { name := "sprite".toList, frames := [], current_frame_id := 0 } = sprite_processor ∧
    sprite_processor.frames.map Sprite.fileName = [sprite_png] ∧
    onFileChanged ImageProcessor.api sample_fs sample_loader sprite_png
        { processorList := [sprite_processor], fs_watcher := [sprite_png],
          need_to_update := false } =
      { processorList := [sprite_processor], fs_watcher := [sprite_png],
        need_to_update := true } ∧
    ImageProcessor.loadImage sprite_png (sample_loader sprite_png).1 sprite_processor ≠
      sprite_processor := by
  decide

/-- Claim C5. `onFileChanged(path)` for a path that does not exist, or whose size
on disk is zero, returns the state it was given: no processor is touched and
the preview's `need_to_update` flag is as before. -/
theorem onFileChanged_ignored {P : Type} (api : ImageProcessorApi P) (fsys : FileSystem)
    (il : ImageLoader) (file_path : QString) (s : MainWindow P)
    (h : fsys.fileExists file_path = false ∨ fsys.size file_path = 0) :
    onFileChanged api fsys il file_path s = s := by
  unfold onFileChanged
  rcases h with h | h
  · rw [if_pos h]
  · by_cases he : fsys.fileExists file_path = false
    · rw [if_pos he]
    · rw [if_neg he, if_pos h]

theorem onFileChanged_ignored_witness :
    (empty_file_fs.fileExists sprite_png = false ∨ empty_file_fs.size sprite_png = 0) ∧
    onFileChanged ImageProcessor.api empty_file_fs sample_loader sprite_png
        { processorList := [sprite_processor], fs_watcher := [sprite_png],
          need_to_update := false } =
      { processorList := [sprite_processor], fs_watcher := [sprite_png],
        need_to_update := false } :=
  ⟨Or.inr rfl, onFileChanged_ignored ImageProcessor.api empty_file_fs sample_loader
    sprite_png _ (Or.inr rfl)⟩

/-- Claim C6, failing input. `/a/h.png` is the height-map source of the
processor's frame, attached by `loadHeightMap`; the file exists, is not empty,
and now fails to decode.
`onFileChanged` nevertheless calls `loadHeightMap` with the failed image: the
frame's height map is replaced by the null image and the processor's state is
no longer what it was. -/
theorem onFileChanged_loads_failed_image :
    ImageProcessor.loadHeightMap h_png new_image sprite_processor = heightmap_processor ∧
    (sample_loader h_png).2 = false ∧
    onFileChanged ImageProcessor.api sample_fs sample_loader h_png
        { processorList := [heightmap_processor], fs_watcher := [sprite_png, h_png],
          need_to_update := false } =
      { processorList :=
          [ImageProcessor.loadHeightMap h_png (sample_loader h_png).1 heightmap_processor],
        fs_watcher := [sprite_png, h_png], need_to_update := true } ∧
    ImageProcessor.loadHeightMap h_png (sample_loader h_png).1 heightmap_processor ≠
      heightmap_processor := by
  decide

/-! ## Decode failures in the context-menu actions -/

theorem add_new_frames_append_failed {P : Type} (api : ImageProcessorApi P)
    (fsys : FileSystem) (il : ImageLoader) (f : QString) (hf : f ≠ [])
    (hfail : (il f).2 = false) (post : List QString) :
    ∀ (pre : List QString) (s : P × FsWatcher),
      add_new_frames api fsys il (pre ++ f :: post) s = add_new_frames api fsys il pre s := by
  intro pre
  induction pre with
  | nil =>
    intro s
    simp [add_new_frames, hf, hfail]
  | cons g gs ih =>
    intro s
    simp only [List.cons_append, add_new_frames]
    split_ifs
    · rfl
    · exact ih _
    · exact ih _

theorem mem_addPath {fsys : FileSystem} {w : FsWatcher} {g f : QString}
    (h : f ∈ FsWatcher.addPath fsys w g) : f ∈ w ∨ f = g := by
  unfold FsWatcher.addPath at h
  split_ifs at h
  · simpa using h
  · exact Or.inl h

theorem add_new_frames_watch_of_failed {P : Type} (api : ImageProcessorApi P)
    (fsys : FileSystem) (il : ImageLoader) (f : QString) (hfail : (il f).2 = false) :
    ∀ (files : List QString) (s : P × FsWatcher),
      f ∈ (add_new_frames api fsys il files s).2 → f ∈ s.2 := by
  intro files
  induction files with
  | nil => intro s h; exact h
  | cons g gs ih =>
    intro s h
    simp only [add_new_frames] at h
    split_ifs at h with h1 h2
    · exact h
    · rcases mem_addPath (ih _ h) with hw | hg
      · exact hw
      · subst hg; exact absurd hfail h2
    · exact ih _ h

/-- Claim C7. A chosen file `f` that fails to decode leaves "Load heightmap" and
"Load specular map" without any effect on the processor or on the watched
paths; "Add new frames" stops at it: the action on a list of files in which `f`
occurs does what it does on the files before `f` alone, and whatever files are
chosen, `f` is watched afterwards only if it was watched before. -/
theorem decode_failure_aborts {P : Type} (api : ImageProcessorApi P) (fsys : FileSystem)
    (il : ImageLoader) (f : QString) (hf : f ≠ []) (hfail : (il f).2 = false)
    (s : P × FsWatcher) :
    load_heightmap api fsys il f s = s ∧
    load_specular_map api fsys il f s = s ∧
    (∀ pre post : List QString,
      add_new_frames api fsys il (pre ++ f :: post) s = add_new_frames api fsys il pre s) ∧
    (∀ files : List QString, f ∈ (add_new_frames api fsys il files s).2 → f ∈ s.2) := by
  refine ⟨?_, ?_, ?_, ?_⟩
  · simp [load_heightmap, hfail]
  · simp [load_specular_map, hfail]
  · intro pre post
    exact add_new_frames_append_failed api fsys il f hf hfail post pre s
  · intro files
    exact add_new_frames_watch_of_failed api fsys il f hfail files s

theorem decode_failure_aborts_witness :
    h_png ≠ [] ∧ (sample_loader h_png).2 = false ∧
    (load_heightmap ImageProcessor.api sample_fs sample_loader h_png
        (sprite_processor, [sprite_png]) = (sprite_processor, [sprite_png]) ∧
    load_specular_map ImageProcessor.api sample_fs sample_loader h_png
        (sprite_processor, [sprite_png]) = (sprite_processor, [sprite_png]) ∧
    (∀ pre post : List QString,
      add_new_frames ImageProcessor.api sample_fs sample_loader (pre ++ h_png :: post)
          (sprite_processor, [sprite_png]) =
        add_new_frames ImageProcessor.api sample_fs sample_loader pre
          (sprite_processor, [sprite_png])) ∧
    (∀ files : List QString,
      h_png ∈ (add_new_frames ImageProcessor.api sample_fs sample_loader files
          (sprite_processor, [sprite_png])).2 →
        h_png ∈ (sprite_processor, [sprite_png]).2)) :=
  ⟨by decide, by decide,
    decode_failure_aborts ImageProcessor.api sample_fs sample_loader h_png (by decide)
      (by decide) (sprite_processor, [sprite_png])⟩

/-! ## A frame of the wrong size -/

/-- Claim C8, counterexample. `/a/big.png` decodes to a `3 × 3` image, which the
processor with a `2 × 2` frame rejects; it was not watched before "Add new
frames" and is watched after it. -/
theorem add_new_frames_watches_rejected :
    (sample_loader big_png).2 = true ∧
    ImageProcessor.loadImage big_png (sample_loader big_png).1.convertToFormat
      sprite_processor = sprite_processor ∧
    big_png ∉ [sprite_png] ∧
    big_png ∈ (add_new_frames ImageProcessor.api sample_fs sample_loader [big_png]
      (sprite_processor, [sprite_png])).2 ∧
    ¬ ((add_new_frames ImageProcessor.api sample_fs sample_loader [big_png]
          (sprite_processor, [sprite_png])).1.frames.length =
        sprite_processor.frames.length ∧
      (add_new_frames ImageProcessor.api sample_fs sample_loader [big_png]
          (sprite_processor, [sprite_png])).2 = [sprite_png]) := by
  decide

/-- Claim C8, as the code has it. When "Add new frames" supplies a decoded image
whose dimensions differ from those of the sprite's first frame, the processor
is left as it was, so the frame count is the same; the watched paths are the
prior ones with the file added by `addPath`, so an existing file is watched
afterwards. -/
theorem add_new_frames_rejected (fsys : FileSystem) (il : ImageLoader) (f : QString)
    (p : ImageProcessor) (w : FsWatcher) (g : Sprite) (rest : List Sprite)
    (hf : f ≠ []) (hok : (il f).2 = true) (hframes : p.frames = g :: rest)
    (hdim : ¬ ((il f).1.width = g.image.width ∧ (il f).1.height = g.image.height)) :
    (add_new_frames ImageProcessor.api fsys il [f] (p, w)).1 = p ∧
    (add_new_frames ImageProcessor.api fsys il [f] (p, w)).1.frames.length =
      p.frames.length ∧
    (add_new_frames ImageProcessor.api fsys il [f] (p, w)).2 = FsWatcher.addPath fsys w f ∧
    (fsys.fileExists f = true →
      f ∈ (add_new_frames ImageProcessor.api fsys il [f] (p, w)).2) := by
  have hrej : ImageProcessor.loadImage f (il f).1.convertToFormat p = p := by
    unfold ImageProcessor.loadImage
    rw [hframes]
    simp only [QImage.convertToFormat]
    rw [if_neg hdim]
  have hrun : add_new_frames ImageProcessor.api fsys il [f] (p, w) =
      (p, FsWatcher.addPath fsys w f) := by
    simp [add_new_frames, hf, hok, ImageProcessor.api, hrej]
  rw [hrun]
  refine ⟨rfl, rfl, rfl, ?_⟩
  intro hex
  unfold FsWatcher.addPath
  by_cases hmem : f ∈ w
  · simp [hmem]
  · simp [hex, hmem]

theorem add_new_frames_rejected_witness :
    big_png ≠ [] ∧ (sample_loader big_png).2 = true ∧
    sprite_processor.frames =
      { fileName := sprite_png, image := old_image, heightmapPath := [],
        heightmap := old_image, specularPath := [], specular := old_image } :: [] ∧
    ¬ ((sample_loader big_png).1.width = old_image.width ∧
       (sample_loader big_png).1.height = old_image.height) ∧
    ((add_new_frames ImageProcessor.api sample_fs sample_loader [big_png]
        (sprite_processor, [sprite_png])).1 = sprite_processor ∧
    (add_new_frames ImageProcessor.api sample_fs sample_loader [big_png]
        (sprite_processor, [sprite_png])).1.frames.length = sprite_processor.frames.length ∧
    (add_new_frames ImageProcessor.api sample_fs sample_loader [big_png]
        (sprite_processor, [sprite_png])).2 =
      FsWatcher.addPath sample_fs [sprite_png] big_png ∧
    (sample_fs.fileExists big_png = true →
      big_png ∈ (add_new_frames ImageProcessor.api sample_fs sample_loader [big_png]
        (sprite_processor, [sprite_png])).2)) :=
  ⟨by decide, by decide, by decide, by decide,
    add_new_frames_rejected sample_fs sample_loader big_png sprite_processor [sprite_png]
      _ [] (by decide) (by decide) rfl (by decide)⟩

/-! ## Saving and loading the sample lights -/

theorem toInt_component (c : Fin 256) :
    (QJsonValue.double ((c.val : ℕ) : ℚ)).toInt = (c.val : Int) := by
  have hc := c.isLt
  simp only [QJsonValue.toInt, Rat.den_natCast, Rat.num_natCast, true_and]
  rw [if_pos]
  omega

theorem ofRgb_components (c : QColor) :
    QColor.ofRgb (c.red.val : Int) (c.green.val : Int) (c.blue.val : Int) = c := by
  have hr := c.red.isLt
  have hg := c.green.isLt
  have hb := c.blue.isLt
  unfold QColor.ofRgb
  rw [if_pos (by omega)]
  cases c
  simp [Fin.ofNat, Nat.mod_eq_of_lt, Fin.ext_iff]

theorem light_of_json_to_json (toFloat : ℚ → ℚ) (fresh l : LightSource) :
    light_of_json toFloat fresh (light_to_json l) =
      { fresh with
        lightPosition :=
          { x := toFloat l.lightPosition.x, y := toFloat l.lightPosition.y,
            z := toFloat l.lightPosition.z }
        diffuse_color := l.diffuse_color
        specular_color := l.diffuse_color
        specular_scatter := toFloat l.specular_scatter
        specular_intensity := toFloat l.specular_intensity
        diffuse_intensity := toFloat l.diffuse_intensity } := by
  have hcol : QColor.ofRgb
      (QJsonValue.double ((l.diffuse_color.red.val : ℕ) : ℚ)).toInt
      (QJsonValue.double ((l.diffuse_color.green.val : ℕ) : ℚ)).toInt
      (QJsonValue.double ((l.diffuse_color.blue.val : ℕ) : ℚ)).toInt = l.diffuse_color := by
    rw [toInt_component, toInt_component, toInt_component, ofRgb_components]
  have hshape : light_of_json toFloat fresh (light_to_json l) =
      { fresh with
        lightPosition :=
          { x := toFloat l.lightPosition.x, y := toFloat l.lightPosition.y,
            z := toFloat l.lightPosition.z }
        diffuse_color := QColor.ofRgb
          (QJsonValue.double ((l.diffuse_color.red.val : ℕ) : ℚ)).toInt
          (QJsonValue.double ((l.diffuse_color.green.val : ℕ) : ℚ)).toInt
          (QJsonValue.double ((l.diffuse_color.blue.val : ℕ) : ℚ)).toInt
        specular_color := QColor.ofRgb
          (QJsonValue.double ((l.diffuse_color.red.val : ℕ) : ℚ)).toInt
          (QJsonValue.double ((l.diffuse_color.green.val : ℕ) : ℚ)).toInt
          (QJsonValue.double ((l.diffuse_color.blue.val : ℕ) : ℚ)).toInt
        specular_scatter := toFloat l.specular_scatter
        specular_intensity := toFloat l.specular_intensity
        diffuse_intensity := toFloat l.diffuse_intensity } := rfl
  rw [hshape, hcol]

theorem load_save_lights (toFloat : ℚ → ℚ) (fresh : LightSource) (path : QString)
    (ui : GeneralUi) (lights : List LightSource) (store : Project) :
    (LoadProject toFloat fresh path (SaveProject path ui lights store)).2 =
      lights.map fun l => light_of_json toFloat fresh (light_to_json l) := by
  have hload : ∀ gs : QJsonObject,
      ((Project.load (Project.save store path gs) path).value (key "general")).toObject
        = gs := by
    intro gs
    simp [Project.load, Project.save, QJsonObject.insert, QJsonObject.value,
      QJsonValue.toObject]
  unfold LoadProject SaveProject
  simp only [hload]
  show List.map (light_of_json toFloat fresh)
      (QJsonValue.toArray (QJsonValue.array (List.map light_to_json lights))) = _
  simp [QJsonValue.toArray]

theorem saved_of_json_to_json (toFloat : ℚ → ℚ) (fresh l : LightSource)
    (hl : LightSource.isFloat toFloat l) :
    (light_of_json toFloat fresh (light_to_json l)).saved = l.saved := by
  obtain ⟨hx, hy, hz, hd, hs, hc⟩ := hl
  rw [light_of_json_to_json]
  simp only [LightSource.saved, hx, hy, hz, hd, hs, hc]

/-- Claim C9. For every sample light list whose components are `float` values,
`SaveProject` followed by `LoadProject` yields a light list of the same length
in which, position by position, each light has the same position `(x, y, z)`,
the same diffuse colour components `(r, g, b)`, the same diffuse intensity, the
same specular intensity and the same specular scatter. -/
theorem save_load_lights_saved (toFloat : ℚ → ℚ) (fresh : LightSource) (path : QString)
    (ui : GeneralUi) (lights : List LightSource) (store : Project)
    (hfloat : ∀ l ∈ lights, LightSource.isFloat toFloat l) :
    (LoadProject toFloat fresh path (SaveProject path ui lights store)).2.length =
      lights.length ∧
    (LoadProject toFloat fresh path (SaveProject path ui lights store)).2.map
      LightSource.saved = lights.map LightSource.saved := by
  rw [load_save_lights]
  refine ⟨by simp, ?_⟩
  rw [List.map_map]
  apply List.map_congr_left
  intro l hl
  exact saved_of_json_to_json toFloat fresh l (hfloat l hl)

theorem save_load_lights_saved_witness :
    (∀ l ∈ [sample_light, fresh_light], LightSource.isFloat id l) ∧
    (LoadProject id fresh_light project_path
        (SaveProject project_path sample_ui [sample_light, fresh_light] [])).2.length =
      [sample_light, fresh_light].length ∧
    (LoadProject id fresh_light project_path
        (SaveProject project_path sample_ui [sample_light, fresh_light] [])).2.map
      LightSource.saved = [sample_light, fresh_light].map LightSource.saved :=
  ⟨fun _ _ => ⟨rfl, rfl, rfl, rfl, rfl, rfl⟩,
    save_load_lights_saved id fresh_light project_path sample_ui
      [sample_light, fresh_light] [] (fun _ _ => ⟨rfl, rfl, rfl, rfl, rfl, rfl⟩)⟩

theorem light_round_trip (toFloat : ℚ → ℚ) (fresh l : LightSource)
    (hl : LightSource.isFloat toFloat l) :
    light_of_json toFloat fresh (light_to_json l) =
      { l with specular_color := l.diffuse_color, height := fresh.height } := by
  obtain ⟨hx, hy, hz, hd, hs, hc⟩ := hl
  rw [light_of_json_to_json, hx, hy, hz, hd, hs, hc]

/-- Claim C10, counterexample. A red light at height `3` whose specular colour
is blue comes back from `SaveProject` and `LoadProject` with a red specular
colour and with the height `0` of the newly constructed light. -/
theorem save_load_changes_specular_color :
    sample_light.specular_color = { red := 0, green := 0, blue := 255 } ∧
    sample_light.height = 3 ∧
    (LoadProject id fresh_light project_path
        (SaveProject project_path sample_ui [sample_light] [])).2.map
      LightSource.specular_color = [{ red := 255, green := 0, blue := 0 }] ∧
    (LoadProject id fresh_light project_path
        (SaveProject project_path sample_ui [sample_light] [])).2.map
      LightSource.height = [0] ∧
    (LoadProject id fresh_light project_path
        (SaveProject project_path sample_ui [sample_light] [])).2 ≠ [sample_light] := by
  rw [load_save_lights]
  simp only [List.map, light_of_json_to_json]
  decide

/-- Claim C10, as the code has it. For every sample light list whose components
are `float` values, `SaveProject` followed by `LoadProject` yields the same
lights, in order, with the same position, diffuse colour, diffuse intensity,
specular intensity and specular scatter; the specular colour of each loaded
light is the diffuse colour of the saved one, and its height is that of a newly
constructed `LightSource`.  So every attribute is reproduced for the lights
whose specular colour is their diffuse colour and whose height is that of a
newly constructed light. -/
theorem save_load_lights_specular (toFloat : ℚ → ℚ) (fresh : LightSource) (path : QString)
    (ui : GeneralUi) (lights : List LightSource) (store : Project)
    (hfloat : ∀ l ∈ lights, LightSource.isFloat toFloat l) :
    (LoadProject toFloat fresh path (SaveProject path ui lights store)).2 =
      lights.map (fun l =>
        { l with specular_color := l.diffuse_color, height := fresh.height }) ∧
    ((∀ l ∈ lights, l.specular_color = l.diffuse_color ∧ l.height = fresh.height) →
      (LoadProject toFloat fresh path (SaveProject path ui lights store)).2 = lights) := by
  have hmain : (LoadProject toFloat fresh path (SaveProject path ui lights store)).2 =
      lights.map (fun l =>
        { l with specular_color := l.diffuse_color, height := fresh.height }) := by
    rw [load_save_lights]
    apply List.map_congr_left
    intro l hl
    exact light_round_trip toFloat fresh l (hfloat l hl)
  refine ⟨hmain, ?_⟩
  intro hspec
  rw [hmain]
  conv_rhs => rw [← List.map_id lights]
  apply List.map_congr_left
  intro l hl
  obtain ⟨h1, h2⟩ := hspec l hl
  cases l
  simp only at h1 h2
  subst h1 h2
  rfl

theorem save_load_lights_specular_witness :
    (∀ l ∈ [sample_light, red_light], LightSource.isFloat id l) ∧
    (LoadProject id fresh_light project_path
        (SaveProject project_path sample_ui [sample_light, red_light] [])).2 =
      [sample_light, red_light].map (fun l =>
        { l with specular_color := l.diffuse_color, height := fresh_light.height }) ∧
    ((∀ l ∈ [sample_light, red_light],
        l.specular_color = l.diffuse_color ∧ l.height = fresh_light.height) →
      (LoadProject id fresh_light project_path
          (SaveProject project_path sample_ui [sample_light, red_light] [])).2 =
        [sample_light, red_light]) :=
  ⟨fun _ _ => ⟨rfl, rfl, rfl, rfl, rfl, rfl⟩,
    save_load_lights_specular id fresh_light project_path sample_ui
      [sample_light, red_light] [] (fun _ _ => ⟨rfl, rfl, rfl, rfl, rfl, rfl⟩)⟩

/-- A red light whose specular colour is its diffuse colour and whose height is
that of a newly constructed light comes back from `SaveProject` and
`LoadProject` as it was, loaded onto a white light at the origin. -/
theorem save_load_red_light :
    red_light ≠ fresh_light ∧
    (LoadProject id fresh_light project_path
        (SaveProject project_path sample_ui [red_light] [])).2 = [red_light] := by
  rw [load_save_lights]
  simp only [List.map, light_of_json_to_json]
  decide

/-! ## The context menu -/

/-- Claim C11. For a sprite with more than one frame whose animation is active,
the context menu is built and has "Remove current frame", "Next Frame" and
"Previous Frame" disabled, and it offers "Stop Animation" and no
"Start Animation". -/
theorem context_menu_while_animating (selected_count : Int) (p : FrameView)
    (hsel : selected_count ≠ 0) (hframes : p.frames_count > 1)
    (hactive : p.animation_isActive = true) :
    ∃ m, showContextMenuForListWidget selected_count p = some m ∧
      MenuEntry.action (tr "Remove current frame") false ∈ m ∧
      MenuEntry.action (tr "Remove current frame") true ∉ m ∧
      MenuEntry.action (tr "Next Frame") false ∈ m ∧
      MenuEntry.action (tr "Next Frame") true ∉ m ∧
      MenuEntry.action (tr "Previous Frame") false ∈ m ∧
      MenuEntry.action (tr "Previous Frame") true ∉ m ∧
      MenuEntry.action (tr "Stop Animation") true ∈ m ∧
      (∀ e, MenuEntry.action (tr "Start Animation") e ∉ m) := by
  have hm : showContextMenuForListWidget selected_count p = some
      ([MenuEntry.action (tr "Remove") true, MenuEntry.separator,
        MenuEntry.action (tr "Load heightmap") true,
        MenuEntry.action (tr "Reset heightmap") true, MenuEntry.separator,
        MenuEntry.action (tr "Load specular map") true,
        MenuEntry.action (tr "Reset specular map") true, MenuEntry.separator,
        MenuEntry.action (tr "Add new frames") true] ++
       [MenuEntry.action (tr "Remove current frame") false,
        MenuEntry.action (tr "Stop Animation") true,
        MenuEntry.action (tr "Next Frame") false,
        MenuEntry.action (tr "Previous Frame") false]) := by
    simp only [showContextMenuForListWidget, hsel, hframes, hactive, if_true, if_false,
      ite_self]
  refine ⟨_, hm, by decide, by decide, by decide, by decide, by decide, by decide,
    by decide, ?_⟩
  intro e
  cases e <;> decide

theorem context_menu_stopped (selected_count : Int) (p : FrameView)
    (hsel : selected_count ≠ 0) (hframes : p.frames_count > 1)
    (hactive : p.animation_isActive = false) :
    showContextMenuForListWidget selected_count p = some
      ([MenuEntry.action (tr "Remove") true, MenuEntry.separator,
        MenuEntry.action (tr "Load heightmap") true,
        MenuEntry.action (tr "Reset heightmap") true, MenuEntry.separator,
        MenuEntry.action (tr "Load specular map") true,
        MenuEntry.action (tr "Reset specular map") true, MenuEntry.separator,
        MenuEntry.action (tr "Add new frames") true] ++
       [MenuEntry.action (tr "Remove current frame") true,
        MenuEntry.action (tr "Start Animation") true,
        MenuEntry.action (tr "Next Frame")
          (if p.current_frame_id = p.frames_count - 1 then false else true),
        MenuEntry.action (tr "Previous Frame")
          (if p.current_frame_id = p.frames_count - 1 then true
           else if p.current_frame_id = 0 then false else true)]) := by
  simp only [showContextMenuForListWidget, hsel, hframes, hactive, if_true, if_false]
  rfl

theorem context_menu_animating (selected_count : Int) (p : FrameView)
    (hsel : selected_count ≠ 0) (hframes : p.frames_count > 1)
    (hactive : p.animation_isActive = true) :
    showContextMenuForListWidget selected_count p = some
      ([MenuEntry.action (tr "Remove") true, MenuEntry.separator,
        MenuEntry.action (tr "Load heightmap") true,
        MenuEntry.action (tr "Reset heightmap") true, MenuEntry.separator,
        MenuEntry.action (tr "Load specular map") true,
        MenuEntry.action (tr "Reset specular map") true, MenuEntry.separator,
        MenuEntry.action (tr "Add new frames") true] ++
       [MenuEntry.action (tr "Remove current frame") false,
        MenuEntry.action (tr "Stop Animation") true,
        MenuEntry.action (tr "Next Frame") false,
        MenuEntry.action (tr "Previous Frame") false]) := by
  simp only [showContextMenuForListWidget, hsel, hframes, hactive, if_true, if_false,
    ite_self]

theorem context_menu_single_frame (selected_count : Int) (p : FrameView)
    (hsel : selected_count ≠ 0) (hframes : ¬ p.frames_count > 1) :
    showContextMenuForListWidget selected_count p = some
      ([MenuEntry.action (tr "Remove") true, MenuEntry.separator,
        MenuEntry.action (tr "Load heightmap") true,
        MenuEntry.action (tr "Reset heightmap") true, MenuEntry.separator,
        MenuEntry.action (tr "Load specular map") true,
        MenuEntry.action (tr "Reset specular map") true, MenuEntry.separator,
        MenuEntry.action (tr "Add new frames") true] ++
       [MenuEntry.action (tr "Split in frames") true]) := by
  simp only [showContextMenuForListWidget, hsel, hframes, if_false]

theorem context_menu_while_animating_witness :
    (1 : Int) ≠ 0 ∧ (3 : Int) > 1 ∧
    ∃ m, showContextMenuForListWidget 1
        { frames_count := 3, animation_isActive := true, current_frame_id := 1 } = some m ∧
      MenuEntry.action (tr "Remove current frame") false ∈ m ∧
      MenuEntry.action (tr "Remove current frame") true ∉ m ∧
      MenuEntry.action (tr "Next Frame") false ∈ m ∧
      MenuEntry.action (tr "Next Frame") true ∉ m ∧
      MenuEntry.action (tr "Previous Frame") false ∈ m ∧
      MenuEntry.action (tr "Previous Frame") true ∉ m ∧
      MenuEntry.action (tr "Stop Animation") true ∈ m ∧
      (∀ e, MenuEntry.action (tr "Start Animation") e ∉ m) :=
  ⟨by decide, by decide,
    context_menu_while_animating 1
      { frames_count := 3, animation_isActive := true, current_frame_id := 1 }
      (by decide) (by decide) rfl⟩

/-- Claim C12, counterexample. For a sprite with two frames whose animation is
active, the menu contains "Add new frames", enabled. -/
theorem context_menu_add_new_frames_while_animating :
    showContextMenuForListWidget 1
        { frames_count := 2, animation_isActive := true, current_frame_id := 0 } = some
      [MenuEntry.action (tr "Remove") true, MenuEntry.separator,
       MenuEntry.action (tr "Load heightmap") true,
       MenuEntry.action (tr "Reset heightmap") true, MenuEntry.separator,
       MenuEntry.action (tr "Load specular map") true,
       MenuEntry.action (tr "Reset specular map") true, MenuEntry.separator,
       MenuEntry.action (tr "Add new frames") true,
       MenuEntry.action (tr "Remove current frame") false,
       MenuEntry.action (tr "Stop Animation") true,
       MenuEntry.action (tr "Next Frame") false,
       MenuEntry.action (tr "Previous Frame") false] := by
  decide

/-- Claim C12, as the code has it. Whatever the animation state, "Add new
frames" is in the menu that is built, enabled, and not in it disabled; while
the sprite's animation is active, the menu has no enabled "Remove current
frame" (the action is disabled, or absent for a sprite of one frame). -/
theorem context_menu_structural_while_animating (selected_count : Int) (p : FrameView)
    (hsel : selected_count ≠ 0) :
    ∃ m, showContextMenuForListWidget selected_count p = some m ∧
      MenuEntry.action (tr "Add new frames") true ∈ m ∧
      MenuEntry.action (tr "Add new frames") false ∉ m ∧
      (p.animation_isActive = true →
        MenuEntry.action (tr "Remove current frame") true ∉ m) := by
  by_cases hframes : p.frames_count > 1
  · by_cases hactive : p.animation_isActive = true
    · exact ⟨_, context_menu_animating selected_count p hsel hframes hactive,
        by decide, by decide, fun _ => (by decide)⟩
    · have hstopped : p.animation_isActive = false := by simpa using hactive
      refine ⟨_, context_menu_stopped selected_count p hsel hframes hstopped,
        List.mem_append_left _ (by decide), ?_, fun h => absurd h hactive⟩
      split_ifs <;> decide
  · exact ⟨_, context_menu_single_frame selected_count p hsel hframes,
      by decide, by decide, fun _ => (by decide)⟩

theorem context_menu_structural_while_animating_witness :
    (1 : Int) ≠ 0 ∧
    ∃ m, showContextMenuForListWidget 1
        { frames_count := 2, animation_isActive := true, current_frame_id := 0 } = some m ∧
      MenuEntry.action (tr "Add new frames") true ∈ m ∧
      MenuEntry.action (tr "Add new frames") false ∉ m ∧
      ((true : Bool) = true →
        MenuEntry.action (tr "Remove current frame") true ∉ m) :=
  ⟨by decide,
    context_menu_structural_while_animating 1
      { frames_count := 2, animation_isActive := true, current_frame_id := 0 }
      (by decide)⟩

theorem mem_stopped_next (b c : Bool) :
    MenuEntry.action (tr "Next Frame") true ∈
      ([MenuEntry.action (tr "Remove") true, MenuEntry.separator,
        MenuEntry.action (tr "Load heightmap") true,
        MenuEntry.action (tr "Reset heightmap") true, MenuEntry.separator,
        MenuEntry.action (tr "Load specular map") true,
        MenuEntry.action (tr "Reset specular map") true, MenuEntry.separator,
        MenuEntry.action (tr "Add new frames") true] ++
       [MenuEntry.action (tr "Remove current frame") true,
        MenuEntry.action (tr "Start Animation") true,
        MenuEntry.action (tr "Next Frame") b,
        MenuEntry.action (tr "Previous Frame") c]) ↔ b = true := by
  cases b <;> cases c <;> decide

theorem mem_stopped_previous (b c : Bool) :
    MenuEntry.action (tr "Previous Frame") true ∈
      ([MenuEntry.action (tr "Remove") true, MenuEntry.separator,
        MenuEntry.action (tr "Load heightmap") true,
        MenuEntry.action (tr "Reset heightmap") true, MenuEntry.separator,
        MenuEntry.action (tr "Load specular map") true,
        MenuEntry.action (tr "Reset specular map") true, MenuEntry.separator,
        MenuEntry.action (tr "Add new frames") true] ++
       [MenuEntry.action (tr "Remove current frame") true,
        MenuEntry.action (tr "Start Animation") true,
        MenuEntry.action (tr "Next Frame") b,
        MenuEntry.action (tr "Previous Frame") c]) ↔ c = true := by
  cases b <;> cases c <;> decide

/-- Claim C17. For a sprite with more than one frame, no active animation and
current frame index `c` with `0 ≤ c < frame_count`, the menu has "Next Frame"
enabled exactly when `c < frame_count - 1` and "Previous Frame" enabled exactly
when `c > 0`; so an enabled stepping action passes to `set_current_frame_id` an
index within `[0, frame_count - 1]`. -/
theorem context_menu_stepping (selected_count : Int) (p : FrameView)
    (hsel : selected_count ≠ 0) (hframes : p.frames_count > 1)
    (hactive : p.animation_isActive = false)
    (hlow : 0 ≤ p.current_frame_id) (hhigh : p.current_frame_id < p.frames_count) :
    ∃ m, showContextMenuForListWidget selected_count p = some m ∧
      (MenuEntry.action (tr "Next Frame") true ∈ m ↔
        p.current_frame_id < p.frames_count - 1) ∧
      (MenuEntry.action (tr "Previous Frame") true ∈ m ↔ p.current_frame_id > 0) ∧
      (MenuEntry.action (tr "Next Frame") true ∈ m →
        ∃ k, frame_step (tr "Next Frame") p = some k ∧ 0 ≤ k ∧ k ≤ p.frames_count - 1) ∧
      (MenuEntry.action (tr "Previous Frame") true ∈ m →
        ∃ k, frame_step (tr "Previous Frame") p = some k ∧ 0 ≤ k ∧
          k ≤ p.frames_count - 1) := by
  refine ⟨_, context_menu_stopped selected_count p hsel hframes hactive, ?_⟩
  rw [mem_stopped_next, mem_stopped_previous]
  have hne : tr "Previous Frame" ≠ tr "Next Frame" := by decide
  have hstep1 : frame_step (tr "Next Frame") p = some (p.current_frame_id + 1) := by
    simp [frame_step]
  have hstep2 : frame_step (tr "Previous Frame") p = some (p.current_frame_id - 1) := by
    simp [frame_step, hne]
  rw [hstep1, hstep2]
  have hn : (if p.current_frame_id = p.frames_count - 1 then false else true) = true ↔
      p.current_frame_id < p.frames_count - 1 := by
    split_ifs with h1
    · exact ⟨fun h => (by cases h), fun h => (by omega)⟩
    · exact ⟨fun _ => (by omega), fun _ => rfl⟩
  have hp : (if p.current_frame_id = p.frames_count - 1 then true
      else if p.current_frame_id = 0 then false else true) = true ↔
      p.current_frame_id > 0 := by
    split_ifs with h1 h2
    · exact ⟨fun _ => (by omega), fun _ => rfl⟩
    · exact ⟨fun h => (by cases h), fun h => (by omega)⟩
    · exact ⟨fun _ => (by omega), fun _ => rfl⟩
  refine ⟨hn, hp, ?_, ?_⟩
  · intro h
    have := hn.mp h
    exact ⟨p.current_frame_id + 1, rfl, by omega, by omega⟩
  · intro h
    have := hp.mp h
    exact ⟨p.current_frame_id - 1, rfl, by omega, by omega⟩

theorem context_menu_stepping_witness :
    (1 : Int) ≠ 0 ∧ (3 : Int) > 1 ∧ (0 : Int) ≤ 2 ∧ (2 : Int) < 3 ∧
    ∃ m, showContextMenuForListWidget 1
        { frames_count := 3, animation_isActive := false, current_frame_id := 2 } = some m ∧
      (MenuEntry.action (tr "Next Frame") true ∈ m ↔ (2 : Int) < 3 - 1) ∧
      (MenuEntry.action (tr "Previous Frame") true ∈ m ↔ (2 : Int) > 0) ∧
      (MenuEntry.action (tr "Next Frame") true ∈ m →
        ∃ k, frame_step (tr "Next Frame")
            { frames_count := 3, animation_isActive := false, current_frame_id := 2 } =
          some k ∧ 0 ≤ k ∧ k ≤ (3 : Int) - 1) ∧
      (MenuEntry.action (tr "Previous Frame") true ∈ m →
        ∃ k, frame_step (tr "Previous Frame")
            { frames_count := 3, animation_isActive := false, current_frame_id := 2 } =
          some k ∧ 0 ≤ k ∧ k ≤ (3 : Int) - 1) :=
  ⟨by decide, by decide, by decide, by decide,
    context_menu_stepping 1
      { frames_count := 3, animation_isActive := false, current_frame_id := 2 }
      (by decide) (by decide) rfl (by decide) (by decide)⟩

/-- Claim C18. The menu that is built contains "Remove current frame" exactly
when the sprite has more than one frame, and "Split in frames" exactly when it
does not; so for a sprite of one frame the menu has no action that removes a
frame. -/
theorem context_menu_remove_or_split (selected_count : Int) (p : FrameView)
    (hsel : selected_count ≠ 0) :
    ∃ m, showContextMenuForListWidget selected_count p = some m ∧
      ((∃ e, MenuEntry.action (tr "Remove current frame") e ∈ m) ↔ p.frames_count > 1) ∧
      ((∃ e, MenuEntry.action (tr "Split in frames") e ∈ m) ↔ ¬ p.frames_count > 1) := by
  by_cases hframes : p.frames_count > 1
  · cases hactive : p.animation_isActive
    · refine ⟨_, context_menu_stopped selected_count p hsel hframes hactive, ?_, ?_⟩
      · exact ⟨fun _ => hframes, fun _ => ⟨true, by simp⟩⟩
      · constructor
        · rintro ⟨e, he⟩
          exfalso
          revert he
          generalize (if p.current_frame_id = p.frames_count - 1 then false else true) = b
          generalize (if p.current_frame_id = p.frames_count - 1 then true
            else if p.current_frame_id = 0 then false else true) = c
          cases e <;> cases b <;> cases c <;> decide
        · intro h; exact absurd hframes h
    · refine ⟨_, context_menu_animating selected_count p hsel hframes hactive, ?_, ?_⟩
      · exact ⟨fun _ => hframes, fun _ => ⟨false, by decide⟩⟩
      · constructor
        · rintro ⟨e, he⟩
          exfalso
          revert he
          cases e <;> decide
        · intro h; exact absurd hframes h
  · refine ⟨_, context_menu_single_frame selected_count p hsel hframes, ?_, ?_⟩
    · constructor
      · rintro ⟨e, he⟩
        exfalso
        revert he
        cases e <;> decide
      · intro h; exact absurd h hframes
    · exact ⟨fun _ => hframes, fun _ => ⟨true, by decide⟩⟩

theorem context_menu_remove_or_split_witness :
    (1 : Int) ≠ 0 ∧
    ∃ m, showContextMenuForListWidget 1
        { frames_count := 1, animation_isActive := false, current_frame_id := 0 } = some m ∧
      ((∃ e, MenuEntry.action (tr "Remove current frame") e ∈ m) ↔ (1 : Int) > 1) ∧
      ((∃ e, MenuEntry.action (tr "Split in frames") e ∈ m) ↔ ¬ (1 : Int) > 1) :=
  ⟨by decide,
    context_menu_remove_or_split 1
      { frames_count := 1, animation_isActive := false, current_frame_id := 0 }
      (by decide)⟩

/-! ## View modes and parallax controls -/

theorem view_mode_code_injective : Function.Injective view_mode_code := by
  intro a b h
  cases a <;> cases b <;> first | rfl | (exact absurd h (by decide))

theorem parallax_type_code_injective : Function.Injective parallax_type_code := by
  intro a b h
  cases a <;> cases b <;> first | rfl | (exact absurd h (by decide))

/-- Claim C13. After `on_comboBoxView_currentIndexChanged(index)` for the index
of any of the six view modes, the preview's lighting is on exactly when the mode
is Preview, "Add Light" is enabled exactly when the mode is Preview, for every
other mode add-light mode is off and the action is unchecked, and the preview's
view mode is the mode named by the index. -/
theorem view_mode_changed (code : ViewMode → Int) (hcode : Function.Injective code)
    (m : ViewMode) (s : PreviewControls) :
    ((on_comboBoxView_currentIndexChanged code (code m) s).light = true ↔
      m = ViewMode.Preview) ∧
    ((on_comboBoxView_currentIndexChanged code (code m) s).actionAdd_Light_enabled = true ↔
      m = ViewMode.Preview) ∧
    (m ≠ ViewMode.Preview →
      (on_comboBoxView_currentIndexChanged code (code m) s).add_light = false ∧
      (on_comboBoxView_currentIndexChanged code (code m) s).actionAdd_Light_checked =
        false) ∧
    (on_comboBoxView_currentIndexChanged code (code m) s).view_mode = m := by
  cases m <;> simp [on_comboBoxView_currentIndexChanged, hcode.eq_iff]

theorem view_mode_changed_witness :
    Function.Injective view_mode_code ∧
    ((on_comboBoxView_currentIndexChanged view_mode_code
        (view_mode_code ViewMode.NormalMap)
        { light := true, add_light := true, view_mode := ViewMode.Preview,
          actionAdd_Light_enabled := true, actionAdd_Light_checked := true }).light = true ↔
      ViewMode.NormalMap = ViewMode.Preview) ∧
    ((on_comboBoxView_currentIndexChanged view_mode_code
        (view_mode_code ViewMode.NormalMap)
        { light := true, add_light := true, view_mode := ViewMode.Preview,
          actionAdd_Light_enabled := true,
          actionAdd_Light_checked := true }).actionAdd_Light_enabled = true ↔
      ViewMode.NormalMap = ViewMode.Preview) ∧
    (ViewMode.NormalMap ≠ ViewMode.Preview →
      (on_comboBoxView_currentIndexChanged view_mode_code
        (view_mode_code ViewMode.NormalMap)
        { light := true, add_light := true, view_mode := ViewMode.Preview,
          actionAdd_Light_enabled := true, actionAdd_Light_checked := true }).add_light =
        false ∧
      (on_comboBoxView_currentIndexChanged view_mode_code
        (view_mode_code ViewMode.NormalMap)
        { light := true, add_light := true, view_mode := ViewMode.Preview,
          actionAdd_Light_enabled := true,
          actionAdd_Light_checked := true }).actionAdd_Light_checked = false) ∧
    (on_comboBoxView_currentIndexChanged view_mode_code
        (view_mode_code ViewMode.NormalMap)
        { light := true, add_light := true, view_mode := ViewMode.Preview,
          actionAdd_Light_enabled := true, actionAdd_Light_checked := true }).view_mode =
      ViewMode.NormalMap :=
  ⟨view_mode_code_injective,
    view_mode_changed view_mode_code view_mode_code_injective ViewMode.NormalMap _⟩

/-- Claim C19. In Binary mode `on_comboBox_currentIndexChanged` leaves the
threshold, soft, focus, min-height, erode/dilate and invert controls visible and
the quantization, brightness and contrast controls hidden; in HeightMap mode it
leaves the soft, brightness, contrast and invert controls visible and the
threshold, focus, min-height, quantization and erode/dilate controls hidden
(sliders and their labels alike). -/
theorem parallax_controls_binary_heightmap (code : ParallaxType → Int)
    (hcode : Function.Injective code) (s : ParallaxPanel) :
    (on_comboBox_currentIndexChanged code (code ParallaxType.Binary) s).controls =
      { parallaxThreshSlider := true, labelThreshParallax := true,
        parallaxSoftSlider := true, labelThreshSoft := true,
        parallaxFocusSlider := true, labelThreshFocus := true,
        parallaxMinHeight := true, labelThreshMin := true,
        sliderParallaxErodeDilate := true, labelErodeDilate := true,
        checkBoxParallaxInvert := true,
        parallaxQuantizationSlider := false, labelQuantization := false,
        sliderParallaxBright := false, labelBrightness := false,
        sliderParallaxContrast := false, labelContrast := false } ∧
    (on_comboBox_currentIndexChanged code (code ParallaxType.HeightMap) s).controls =
      { parallaxSoftSlider := true, labelThreshSoft := true,
        sliderParallaxBright := true, labelBrightness := true,
        sliderParallaxContrast := true, labelContrast := true,
        checkBoxParallaxInvert := true,
        parallaxThreshSlider := false, labelThreshParallax := false,
        parallaxFocusSlider := false, labelThreshFocus := false,
        parallaxMinHeight := false, labelThreshMin := false,
        parallaxQuantizationSlider := false, labelQuantization := false,
        sliderParallaxErodeDilate := false, labelErodeDilate := false } := by
  constructor <;> simp [on_comboBox_currentIndexChanged, parallax_controls, hcode.eq_iff]

theorem parallax_controls_binary_heightmap_witness :
    Function.Injective parallax_type_code ∧
    (on_comboBox_currentIndexChanged parallax_type_code
        (parallax_type_code ParallaxType.Binary) sample_panel).controls =
      { parallaxThreshSlider := true, labelThreshParallax := true,
        parallaxSoftSlider := true, labelThreshSoft := true,
        parallaxFocusSlider := true, labelThreshFocus := true,
        parallaxMinHeight := true, labelThreshMin := true,
        sliderParallaxErodeDilate := true, labelErodeDilate := true,
        checkBoxParallaxInvert := true,
        parallaxQuantizationSlider := false, labelQuantization := false,
        sliderParallaxBright := false, labelBrightness := false,
        sliderParallaxContrast := false, labelContrast := false } ∧
    (on_comboBox_currentIndexChanged parallax_type_code
        (parallax_type_code ParallaxType.HeightMap) sample_panel).controls =
      { parallaxSoftSlider := true, labelThreshSoft := true,
        sliderParallaxBright := true, labelBrightness := true,
        sliderParallaxContrast := true, labelContrast := true,
        checkBoxParallaxInvert := true,
        parallaxThreshSlider := false, labelThreshParallax := false,
        parallaxFocusSlider := false, labelThreshFocus := false,
        parallaxMinHeight := false, labelThreshMin := false,
        parallaxQuantizationSlider := false, labelQuantization := false,
        sliderParallaxErodeDilate := false, labelErodeDilate := false } :=
  ⟨parallax_type_code_injective,
    parallax_controls_binary_heightmap parallax_type_code parallax_type_code_injective
      sample_panel⟩

/-- Claim C20, counterexample. The erode/dilate slider and its label are
visible after the handler runs for Binary mode and hidden after it runs for
Quantization mode. -/
theorem parallax_controls_quantization_hides_erode_dilate :
    (on_comboBox_currentIndexChanged parallax_type_code
      (parallax_type_code ParallaxType.Binary)
      sample_panel).controls.sliderParallaxErodeDilate = true ∧
    (on_comboBox_currentIndexChanged parallax_type_code
      (parallax_type_code ParallaxType.Quantization)
      sample_panel).controls.sliderParallaxErodeDilate = false ∧
    (on_comboBox_currentIndexChanged parallax_type_code
      (parallax_type_code ParallaxType.Quantization)
      sample_panel).controls.labelErodeDilate = false := by
  decide

/-- Claim C20, as the code has it. In Quantization mode
`on_comboBox_currentIndexChanged` leaves visible the threshold, soft, focus,
min-height and invert controls, which are visible in Binary mode, and
additionally the quantization, brightness and contrast controls; the
erode/dilate control is hidden. -/
theorem parallax_controls_quantization (code : ParallaxType → Int)
    (hcode : Function.Injective code) (s : ParallaxPanel) :
    (on_comboBox_currentIndexChanged code (code ParallaxType.Quantization) s).controls =
      { parallaxThreshSlider := true, labelThreshParallax := true,
        parallaxSoftSlider := true, labelThreshSoft := true,
        parallaxFocusSlider := true, labelThreshFocus := true,
        parallaxMinHeight := true, labelThreshMin := true,
        checkBoxParallaxInvert := true,
        parallaxQuantizationSlider := true, labelQuantization := true,
        sliderParallaxBright := true, labelBrightness := true,
        sliderParallaxContrast := true, labelContrast := true,
        sliderParallaxErodeDilate := false, labelErodeDilate := false } := by
  simp [on_comboBox_currentIndexChanged, parallax_controls, hcode.eq_iff]

theorem parallax_controls_quantization_witness :
    Function.Injective parallax_type_code ∧
    (on_comboBox_currentIndexChanged parallax_type_code
        (parallax_type_code ParallaxType.Quantization) sample_panel).controls =
      { parallaxThreshSlider := true, labelThreshParallax := true,
        parallaxSoftSlider := true, labelThreshSoft := true,
        parallaxFocusSlider := true, labelThreshFocus := true,
        parallaxMinHeight := true, labelThreshMin := true,
        checkBoxParallaxInvert := true,
        parallaxQuantizationSlider := true, labelQuantization := true,
        sliderParallaxBright := true, labelBrightness := true,
        sliderParallaxContrast := true, labelContrast := true,
        sliderParallaxErodeDilate := false, labelErodeDilate := false } :=
  ⟨parallax_type_code_injective,
    parallax_controls_quantization parallax_type_code parallax_type_code_injective
      sample_panel⟩

/-! ## Selection -/

theorem sameFrame_refl (s : Selection) : s.sameFrame s :=
  ⟨rfl, rfl, rfl, rfl, rfl, rfl, rfl, fun _ => rfl⟩

theorem sameFrame_trans {a b c : Selection} (h1 : a.sameFrame b) (h2 : b.sameFrame c) :
    a.sameFrame c := by
  obtain ⟨a1, a2, a3, a4, a5, a6, a7, a8⟩ := h1
  obtain ⟨b1, b2, b3, b4, b5, b6, b7, b8⟩ := h2
  exact ⟨a1.trans b1, a2.trans b2, a3.trans b3, a4.trans b4, a5.trans b5, a6.trans b6,
    a7.trans b7, fun q => (a8 q).trans (b8 q)⟩

theorem sameFrame_update (s : Selection) (p : Ptr) (f : ProcFlags)
    (hf : f.name = (s.heap p).name) :
    Selection.sameFrame { s with heap := Function.update s.heap p f } s := by
  refine ⟨rfl, rfl, rfl, rfl, rfl, rfl, rfl, fun q => ?_⟩
  by_cases hq : q = p
  · subst hq; simp [hf]
  · simp [Function.update_noteq hq]

theorem sameFrame_set_selected (s : Selection) (p : Ptr) (b : Bool) :
    (set_selected s p b).sameFrame s :=
  sameFrame_update s p _ rfl

theorem sameFrame_disconnect (s : Selection) (p : Ptr) :
    (disconnect_processor s p).sameFrame s :=
  sameFrame_update s p _ rfl

theorem sameFrame_connect (s : Selection) (p : Ptr) : (connect_processor s p).sameFrame s :=
  sameFrame_update s p _ rfl

theorem sameFrame_select_named (name : QString) (s : Selection) (p : Ptr) :
    (select_named name s p).sameFrame s := by
  unfold select_named
  split_ifs
  · exact sameFrame_set_selected s p true
  · exact sameFrame_refl s

theorem sameFrame_connect_selected (s : Selection) (p : Ptr) :
    (connect_selected s p).sameFrame s := by
  unfold connect_selected
  by_cases h : (s.heap p).selected = true
  · rw [if_pos h]
    have hc := sameFrame_connect s p
    by_cases hl : ((connect_processor s p).heap p).light_count > 0
    · simp only [hl, if_true]
      exact hc
    · simp only [hl, if_false]
      exact hc
  · rw [if_neg h]
    exact sameFrame_refl s

theorem sameFrame_foldl (f : Selection → Ptr → Selection)
    (hf : ∀ s p, (f s p).sameFrame s) (l : List Ptr) :
    ∀ s, (l.foldl f s).sameFrame s := by
  induction l with
  | nil => intro s; exact sameFrame_refl s
  | cons p ps ih =>
    intro s
    exact sameFrame_trans (ih (f s p)) (hf s p)

theorem sameFrame_processor_selected_connect (s : Selection) :
    (processor_selected_connect s).sameFrame s := by
  unfold processor_selected_connect
  have h1 : ∀ t : Selection, (if t.selectedItems.length = 1 then
      t.processorList.foldl (select_named (t.rows.getD (t.selectedItems.getD 0 0) [])) t
    else t).sameFrame t := by
    intro t
    split_ifs
    · exact sameFrame_foldl _ (sameFrame_select_named _) _ _
    · exact sameFrame_refl t
  have h2 : ∀ t : Selection, (t.processorList.foldl connect_selected t).sameFrame t :=
    fun t => sameFrame_foldl _ sameFrame_connect_selected _ _
  have h3 : ∀ t : Selection, (if (t.heap t.sample_processor).selected = true then
      connect_processor t t.sample_processor else t).sameFrame t := by
    intro t
    split_ifs
    · exact sameFrame_connect _ _
    · exact sameFrame_refl t
  have h4 : ∀ t : Selection, (if t.rows.length = 0 then
      { t with map_controls_enabled := true } else t).sameFrame t := by
    intro t
    split_ifs
    · exact sameFrame_refl t
    · exact sameFrame_refl t
  exact sameFrame_trans (h4 _) (sameFrame_trans (h3 _) (sameFrame_trans (h2 _) (h1 s)))

theorem sameFrame_assign_prefix (s : Selection) (p : Ptr) (b : Bool) :
    Selection.sameFrame
      { set_selected (s.processorList.foldl disconnect_processor s) p b with
        map_controls_enabled := false } s := by
  have h : (set_selected (s.processorList.foldl disconnect_processor s) p b).sameFrame s :=
    sameFrame_trans (sameFrame_set_selected (s.processorList.foldl disconnect_processor s) p b)
      (sameFrame_foldl _ sameFrame_disconnect s.processorList s)
  exact h

theorem processor_selected_assign_true (s : Selection) (p : Ptr) :
    (processor_selected_assign s p true).processor = p ∧
    (processor_selected_assign s p true).preview_processor = p ∧
    (processor_selected_assign s p true).preview_processor_list =
      s.preview_processor_list ∧
    (processor_selected_assign s p true).sameModel s := by
  obtain ⟨_, _, h3, h4⟩ := sameFrame_assign_prefix s p true
  exact ⟨rfl, rfl, h3, h4⟩

theorem processor_selected_assign_false (s : Selection) (p : Ptr) :
    (processor_selected_assign s p false).sameFrame s :=
  sameFrame_assign_prefix s p false

theorem processor_selected_model (s : Selection) (p : Ptr) (b : Bool) :
    (processor_selected s p b).preview_processor_list = s.preview_processor_list ∧
    (processor_selected s p b).sameModel s := by
  obtain ⟨_, _, h3, h4, h5, h6, h7, h8⟩ :=
    sameFrame_processor_selected_connect (processor_selected_assign s p b)
  have hassign : (processor_selected_assign s p b).preview_processor_list =
      s.preview_processor_list ∧ (processor_selected_assign s p b).sameModel s := by
    cases b
    · exact ⟨(processor_selected_assign_false s p).2.2.1,
        (processor_selected_assign_false s p).2.2.2⟩
    · exact ⟨(processor_selected_assign_true s p).2.2.1,
        (processor_selected_assign_true s p).2.2.2⟩
  obtain ⟨g3, g4, g5, g6, g7, g8⟩ := hassign
  exact ⟨h3.trans g3, h4.trans g4, h5.trans g5, h6.trans g6, h7.trans g7,
    fun q => (h8 q).trans (g8 q)⟩

/-- Claim C14. After `processor_selected(p, true)` the main window's
active-processor pointer and the preview widget's processor are both `p`;
`processor_selected(p, false)` leaves both pointers as they were. -/
theorem processor_selected_pointers (s : Selection) (p : Ptr) :
    (processor_selected s p true).processor = p ∧
    (processor_selected s p true).preview_processor = p ∧
    (processor_selected s p false).processor = s.processor ∧
    (processor_selected s p false).preview_processor = s.preview_processor := by
  obtain ⟨t1, t2, -⟩ := sameFrame_processor_selected_connect
    (processor_selected_assign s p true)
  obtain ⟨f1, f2, -⟩ := sameFrame_processor_selected_connect
    (processor_selected_assign s p false)
  obtain ⟨a1, a2, -⟩ := processor_selected_assign_true s p
  obtain ⟨b1, b2, -⟩ := processor_selected_assign_false s p
  exact ⟨t1.trans a1, t2.trans a2, f1.trans b1, f2.trans b2⟩

theorem find_processor_congr {t s : Selection} (h : t.sameModel s) (name : QString) :
    find_processor t name = find_processor s name := by
  obtain ⟨h1, -, -, -, h5⟩ := h
  unfold find_processor
  rw [h1]
  congr 1
  funext p
  rw [h5 p]

theorem getD_inj_of_nodup {rows : List QString} (hnodup : rows.Nodup) {i j : Nat}
    (hi : i < rows.length) (hj : j < rows.length)
    (e : rows.getD i [] = rows.getD j []) : i = j := by
  rw [List.getD_eq_getElem _ _ hi, List.getD_eq_getElem _ _ hj] at e
  exact (List.Nodup.getElem_inj_iff hnodup).mp e

theorem sameModel_trans {a b c : Selection} (h1 : a.sameModel b) (h2 : b.sameModel c) :
    a.sameModel c := by
  obtain ⟨a1, a2, a3, a4, a5⟩ := h1
  obtain ⟨b1, b2, b3, b4, b5⟩ := h2
  exact ⟨a1.trans b1, a2.trans b2, a3.trans b3, a4.trans b4, fun q => (a5 q).trans (b5 q)⟩

theorem select_row_found (rowData : QString) (j : Nat) (js : List Nat) (t : Selection)
    (p : Ptr) (h : rowData = t.rows.getD j [])
    (hfind : find_processor t (t.rows.getD j []) = some p) :
    select_row rowData (j :: js) t =
      processor_selected
        { t with preview_processor_list := t.preview_processor_list ++ [p] } p true := by
  rw [select_row, if_pos h, hfind]

theorem select_row_unresolved (rowData : QString) (j : Nat) (js : List Nat) (t : Selection)
    (h : rowData = t.rows.getD j []) (hfind : find_processor t (t.rows.getD j []) = none) :
    select_row rowData (j :: js) t = select_row rowData js t := by
  rw [select_row, if_pos h, hfind]

theorem select_row_other (rowData : QString) (j : Nat) (js : List Nat) (t : Selection)
    (h : rowData ≠ t.rows.getD j []) :
    select_row rowData (j :: js) t = select_row rowData js t := by
  rw [select_row, if_neg h]

theorem select_row_adds (s : Selection) (hnodup : s.rows.Nodup) (i : Nat)
    (hi : i < s.rows.length) :
    ∀ (items : List Nat), (∀ j ∈ items, j < s.rows.length) →
    ∀ (t : Selection), t.sameModel s →
      (select_row (s.rows.getD i []) items t).sameModel s ∧
      (select_row (s.rows.getD i []) items t).preview_processor_list =
        t.preview_processor_list ++
          (if i ∈ items then (find_processor s (s.rows.getD i [])).toList else []) := by
  intro items
  induction items with
  | nil =>
    intro _ t ht
    simp [select_row, ht]
  | cons j js ih =>
    intro hitems t ht
    have hj : j < s.rows.length := hitems j (List.mem_cons_self _ _)
    have hjs : ∀ k ∈ js, k < s.rows.length := fun k hk => hitems k (List.mem_cons_of_mem _ hk)
    have hrows : t.rows = s.rows := ht.2.2.1
    obtain ⟨ih1, ih2⟩ := ih hjs t ht
    by_cases hij : s.rows.getD i [] = s.rows.getD j []
    · have heq : i = j := getD_inj_of_nodup hnodup hi hj hij
      subst heq
      have hcond : s.rows.getD i [] = t.rows.getD i [] := by rw [hrows]
      have hmem : i ∈ i :: js := List.mem_cons_self _ _
      rw [if_pos hmem]
      cases hfind : find_processor s (s.rows.getD i []) with
      | none =>
        have hfind2 : find_processor t (t.rows.getD i []) = none := by
          rw [find_processor_congr ht, hrows, hfind]
        rw [select_row_unresolved _ _ _ _ hcond hfind2]
        refine ⟨ih1, ?_⟩
        rw [ih2, hfind]
        split_ifs <;> rfl
      | some p =>
        have hfind2 : find_processor t (t.rows.getD i []) = some p := by
          rw [find_processor_congr ht, hrows, hfind]
        rw [select_row_found _ _ _ _ p hcond hfind2]
        obtain ⟨hp1, hp2⟩ := processor_selected_model
          { t with preview_processor_list := t.preview_processor_list ++ [p] } p true
        exact ⟨sameModel_trans hp2 ht, hp1⟩
    · have hne : i ≠ j := fun e => hij (by rw [e])
      have hcond : s.rows.getD i [] ≠ t.rows.getD j [] := by rw [hrows]; exact hij
      rw [select_row_other _ _ _ _ hcond]
      refine ⟨ih1, ?_⟩
      rw [ih2]
      have hiff : i ∈ j :: js ↔ i ∈ js := by simp [hne]
      simp only [hiff]

theorem select_loop_adds (s : Selection) (hnodup : s.rows.Nodup)
    (hvalid : ∀ j ∈ s.selectedItems, j < s.rows.length) :
    ∀ (l : List Nat), (∀ i ∈ l, i < s.rows.length) →
    ∀ (t : Selection), t.sameModel s →
      (l.foldl (fun t i => select_row (t.rows.getD i []) t.selectedItems t) t).sameModel s ∧
      (l.foldl (fun t i => select_row (t.rows.getD i []) t.selectedItems t)
          t).preview_processor_list =
        t.preview_processor_list ++ l.filterMap fun i =>
          if i ∈ s.selectedItems then find_processor s (s.rows.getD i []) else none := by
  intro l
  induction l with
  | nil =>
    intro _ t ht
    simp [ht]
  | cons i l ih =>
    intro hl t ht
    have hi : i < s.rows.length := hl i (List.mem_cons_self _ _)
    have hl2 : ∀ k ∈ l, k < s.rows.length := fun k hk => hl k (List.mem_cons_of_mem _ hk)
    have hrows : t.rows = s.rows := ht.2.2.1
    have hsel : t.selectedItems = s.selectedItems := ht.2.2.2.1
    have e : select_row (t.rows.getD i []) t.selectedItems t =
        select_row (s.rows.getD i []) s.selectedItems t := by rw [hrows, hsel]
    obtain ⟨r1, r2⟩ := select_row_adds s hnodup i hi s.selectedItems hvalid t ht
    rw [List.foldl_cons, e]
    obtain ⟨ih1, ih2⟩ := ih hl2 _ r1
    refine ⟨ih1, ?_⟩
    rw [ih2, r2, List.filterMap_cons, List.append_assoc]
    congr 1
    by_cases hmem : i ∈ s.selectedItems
    · simp only [hmem, if_true]
      cases find_processor s (s.rows.getD i []) <;> rfl
    · simp only [hmem, if_false]
      rfl

/-- Claim C16, counterexample. Two rows carry the name `a(frames)` and only the
second is selected: the handler adds the first processor of that name twice,
once for the row that is not selected, where the claim names it once. -/
theorem selection_changed_twin_rows :
    twin_selection.selectedItems = [1] ∧
    selected_processors twin_selection = [1] ∧
    (on_listWidget_itemSelectionChanged twin_selection).preview_processor_list = [1, 1] := by
  decide

/-- Claim C16, as the code has it. When at least one row is selected and the
rows carry pairwise distinct names, `on_listWidget_itemSelectionChanged` clears
the preview's processor list and then adds, for every selected row whose name
resolves to a processor, that processor once, in list-row order; rows that are
not selected contribute nothing. -/
theorem selection_changed_adds (s : Selection) (hsel : s.selectedItems ≠ [])
    (hvalid : ∀ j ∈ s.selectedItems, j < s.rows.length) (hnodup : s.rows.Nodup) :
    (on_listWidget_itemSelectionChanged s).preview_processor_list =
      selected_processors s := by
  obtain ⟨j, js, hjs⟩ := List.exists_cons_of_ne_nil hsel
  have hj : j < s.rows.length := hvalid j (by rw [hjs]; exact List.mem_cons_self _ _)
  have hrows : ¬ s.rows.length = 0 := by omega
  have hcount : s.selectedItems.length > 0 := by rw [hjs]; simp
  obtain ⟨m1, m2⟩ := processor_selected_model s s.sample_processor false
  have hmodel : Selection.sameModel
      { processor_selected s s.sample_processor false with preview_processor_list := [] }
      s := m2
  have hlen : (processor_selected s s.sample_processor false).rows.length =
      s.rows.length := by rw [m2.2.2.1]
  obtain ⟨-, r2⟩ := select_loop_adds s hnodup hvalid (List.range s.rows.length)
    (fun i hi => List.mem_range.mp hi) _ hmodel
  unfold on_listWidget_itemSelectionChanged
  simp only [hrows, hcount, if_true, if_false]
  show (select_rows s).preview_processor_list = _
  unfold select_rows
  simp only [hlen]
  rw [r2]
  rfl

theorem selection_changed_adds_witness :
    distinct_selection.selectedItems ≠ [] ∧
    (∀ j ∈ distinct_selection.selectedItems, j < distinct_selection.rows.length) ∧
    distinct_selection.rows.Nodup ∧
    (on_listWidget_itemSelectionChanged distinct_selection).preview_processor_list =
      selected_processors distinct_selection :=
  ⟨by decide, by decide, by decide,
    selection_changed_adds distinct_selection (by decide) (by decide) (by decide)⟩

/-! ## Opening files -/

theorem load_similar_skip {P : Type} (api : ImageProcessorApi P) (fsys : FileSystem)
    (il : ImageLoader) (f : QString) (fs : List QString) (s : LoadState P) (h : ¬ f ≠ []) :
    load_similar api fsys il (f :: fs) s = load_similar api fsys il fs s := by
  rw [load_similar, if_neg h]

theorem load_similar_rejected {P : Type} (api : ImageProcessorApi P) (fsys : FileSystem)
    (il : ImageLoader) (f : QString) (fs : List QString) (s : LoadState P) (h : f ≠ [])
    (h2 : (il f).2 = false ∨ (il f).1.isNull = true) :
    load_similar api fsys il (f :: fs) s =
      load_similar api fsys il fs { s with loaded := s.loaded || (il f).2 } := by
  rw [load_similar, if_pos h]
  simp only [h2, if_true]

theorem load_similar_loads {P : Type} (api : ImageProcessorApi P) (fsys : FileSystem)
    (il : ImageLoader) (f : QString) (fs : List QString) (s : LoadState P) (h : f ≠ [])
    (h2 : ¬ ((il f).2 = false ∨ (il f).1.isNull = true)) :
    load_similar api fsys il (f :: fs) s =
      load_similar api fsys il fs
        { p := api.loadImage f (il f).1.convertToFormat s.p
          fs_watcher := FsWatcher.addPath fsys s.fs_watcher f
          loaded := s.loaded || (il f).2
          loadImage_calls := s.loadImage_calls ++ [(f, (il f).1.convertToFormat)] } := by
  rw [load_similar, if_pos h]
  simp only [h2, if_false]

theorem load_similar_calls {P : Type} (api : ImageProcessorApi P) (fsys : FileSystem)
    (il : ImageLoader) :
    ∀ (files : List QString) (s : LoadState P),
      (∀ c ∈ s.loadImage_calls, (il c.1).2 = true ∧ (il c.1).1.isNull = false) →
      ∀ c ∈ (load_similar api fsys il files s).loadImage_calls,
        (il c.1).2 = true ∧ (il c.1).1.isNull = false := by
  intro files
  induction files with
  | nil => intro s hs; exact hs
  | cons f fs ih =>
    intro s hs
    by_cases h1 : f ≠ []
    · by_cases h2 : (il f).2 = false ∨ (il f).1.isNull = true
      · rw [load_similar_rejected api fsys il f fs s h1 h2]
        exact ih _ hs
      · rw [load_similar_loads api fsys il f fs s h1 h2]
        apply ih
        intro c hc
        simp only [List.mem_append, List.mem_singleton] at hc
        rcases hc with hc | hc
        · exact hs c hc
        · subst hc
          simp only [not_or, Bool.not_eq_false, Bool.not_eq_true] at h2
          exact h2
    · rw [load_similar_skip api fsys il f fs s h1]
      exact ih _ hs

theorem load_similar_loaded {P : Type} (api : ImageProcessorApi P) (fsys : FileSystem)
    (il : ImageLoader) (hil : ∀ f, (il f).2 = true → (il f).1.isNull = false) :
    ∀ (files : List QString) (s : LoadState P),
      (s.loaded = true → s.loadImage_calls ≠ []) →
      (load_similar api fsys il files s).loaded = true →
        (load_similar api fsys il files s).loadImage_calls ≠ [] := by
  intro files
  induction files with
  | nil => intro s hs; exact hs
  | cons f fs ih =>
    intro s hs
    by_cases h1 : f ≠ []
    · by_cases h2 : (il f).2 = false ∨ (il f).1.isNull = true
      · rw [load_similar_rejected api fsys il f fs s h1 h2]
        apply ih
        intro hl
        have hfail : (il f).2 = false := by
          rcases h2 with h2 | h2
          · exact h2
          · cases hsucc : (il f).2
            · rfl
            · rw [hil f hsucc] at h2
              cases h2
        simp only [hfail, Bool.or_false] at hl
        exact hs hl
      · rw [load_similar_loads api fsys il f fs s h1 h2]
        apply ih
        intro _
        simp
    · rw [load_similar_skip api fsys il f fs s h1]
      exact ih _ hs

/-- Claim C15, failing input. For the single file `/a/bad.png`, for which the
loader reports success and returns a null image, `open_files` makes no
`loadImage` call and yet adds the new processor, which has no frame. -/
theorem open_files_adds_empty_processor :
    (lenient_loader bad_png).2 = true ∧ (lenient_loader bad_png).1.isNull = true ∧
    (open_files_load ImageProcessor.api sample_fs lenient_loader bad_processor [bad_png]
        { processorList := [], fs_watcher := [], need_to_update := false }).2 = [] ∧
    (open_files_load ImageProcessor.api sample_fs lenient_loader bad_processor [bad_png]
        { processorList := [], fs_watcher := [], need_to_update := false }).1 =
      { processorList := [bad_processor], fs_watcher := [], need_to_update := true } ∧
    bad_processor.frames = [] := by
  decide

/-- For a loader that never reports success with a null image, every processor
that `open_files` adds has received at least one `loadImage` call, every call
carries a successfully decoded, non-null image, and a processor for which no
file was loaded is not added. -/
theorem open_files_load_strict {P : Type} (api : ImageProcessorApi P) (fsys : FileSystem)
    (il : ImageLoader) (hil : ∀ f, (il f).2 = true → (il f).1.isNull = false)
    (p : P) (similarList : List QString) (s : MainWindow P) :
    (∀ c ∈ (open_files_load api fsys il p similarList s).2,
      (il c.1).2 = true ∧ (il c.1).1.isNull = false) ∧
    ((open_files_load api fsys il p similarList s).1.processorList ≠ s.processorList →
      (open_files_load api fsys il p similarList s).2 ≠ []) ∧
    ((open_files_load api fsys il p similarList s).2 = [] →
      (open_files_load api fsys il p similarList s).1.processorList = s.processorList) := by
  have hcalls := load_similar_calls api fsys il similarList
    { p := p, fs_watcher := s.fs_watcher, loaded := false, loadImage_calls := [] }
    (by intro c hc; cases hc)
  have hloaded := load_similar_loaded api fsys il hil similarList
    { p := p, fs_watcher := s.fs_watcher, loaded := false, loadImage_calls := [] }
    (by intro h; cases h)
  unfold open_files_load
  by_cases hl : (load_similar api fsys il similarList
      { p := p, fs_watcher := s.fs_watcher, loaded := false, loadImage_calls := [] }).loaded
      = true
  · simp only [hl, if_true]
    exact ⟨hcalls, fun _ => hloaded hl, fun h => absurd h (hloaded hl)⟩
  · simp only [hl, if_false]
    exact ⟨hcalls, fun h => absurd rfl h, fun _ => rfl⟩

theorem open_files_load_strict_witness :
    (∀ f, (sample_loader f).2 = true → (sample_loader f).1.isNull = false) ∧
    (∀ c ∈ (open_files_load ImageProcessor.api sample_fs sample_loader bad_processor
        [bad_png, sprite_png]
        { processorList := [], fs_watcher := [], need_to_update := false }).2,
      (sample_loader c.1).2 = true ∧ (sample_loader c.1).1.isNull = false) ∧
    ((open_files_load ImageProcessor.api sample_fs sample_loader bad_processor
        [bad_png, sprite_png]
        { processorList := [], fs_watcher := [], need_to_update := false }).1.processorList ≠
        [] →
      (open_files_load ImageProcessor.api sample_fs sample_loader bad_processor
        [bad_png, sprite_png]
        { processorList := [], fs_watcher := [], need_to_update := false }).2 ≠ []) ∧
    ((open_files_load ImageProcessor.api sample_fs sample_loader bad_processor
        [bad_png, sprite_png]
        { processorList := [], fs_watcher := [], need_to_update := false }).2 = [] →
      (open_files_load ImageProcessor.api sample_fs sample_loader bad_processor
        [bad_png, sprite_png]
        { processorList := [], fs_watcher := [], need_to_update := false }).1.processorList =
        []) := by
  have hil : ∀ f, (sample_loader f).2 = true → (sample_loader f).1.isNull = false := by
    intro f
    unfold sample_loader
    split_ifs <;> decide
  exact ⟨hil, open_files_load_strict ImageProcessor.api sample_fs sample_loader hil
    bad_processor [bad_png, sprite_png]
    { processorList := [], fs_watcher := [], need_to_update := false }⟩

/-! ## Resets, frame removal and preview export -/

/-- Claim C22, failing input. The sprite named `sprite` has the diffuse source
`/a/sprite.png` and the height-map override `/a/h.png`.  "Reset heightmap" stops
watching `/a/h.png`, but hands the processor the path `sprite` (its name) and
the failed image decoded from that path, not `/a/sprite.png` and the image
decoded from it. -/
theorem reset_heightmap_uses_name :
    heightmap_processor.current_fileName = sprite_png ∧
    reset_heightmap ImageProcessor.api sample_loader
        (heightmap_processor, [sprite_png, h_png]) =
      (ImageProcessor.loadHeightMap "sprite".toList
          (sample_loader "sprite".toList).1.convertToFormat heightmap_processor,
        [sprite_png]) ∧
    (sample_loader "sprite".toList).2 = false ∧
    (reset_heightmap ImageProcessor.api sample_loader
        (heightmap_processor, [sprite_png, h_png])).1 ≠
      ImageProcessor.loadHeightMap sprite_png
        (sample_loader sprite_png).1.convertToFormat heightmap_processor := by
  decide

/-- Whatever `remove_current_frame()` leaves as the current frame, "Remove
current frame" leaves the file of that frame unwatched. -/
theorem remove_current_frame_unwatches_current (s : ImageProcessor × FsWatcher) :
    (remove_current_frame s).1.current_fileName ∉ (remove_current_frame s).2 := by
  simp [remove_current_frame, FsWatcher.removePath]

/-- Claim C25, failing input. The sprite has the frames `/a/f_1.png` (current)
and `/a/f_2.png`, both watched.  After "Remove current frame" the remaining
frame is `/a/f_2.png`; the watched paths are `/a/f_1.png` alone: the removed
frame's file is still watched and the remaining frame's file no longer is. -/
theorem remove_current_frame_unwatches_remaining :
    two_frame_processor.current_fileName = f1_png ∧
    (remove_current_frame (two_frame_processor, [f1_png, f2_png])).1.frames.map
      Sprite.fileName = [f2_png] ∧
    (remove_current_frame (two_frame_processor, [f1_png, f2_png])).2 = [f1_png] := by
  decide

/-- Claim C29, failing input. With the normal map shown and the save dialog
cancelled (empty file name), `on_actionExportPreview_triggered` returns with the
combo box and the preview at Preview. -/
theorem export_preview_cancelled :
    on_actionExportPreview_triggered view_mode_code [] normal_map_view =
      { comboBoxView := 5
        controls :=
          { light := true, add_light := false, view_mode := ViewMode.Preview,
            actionAdd_Light_enabled := true, actionAdd_Light_checked := false } } ∧
    (on_actionExportPreview_triggered view_mode_code [] normal_map_view).comboBoxView ≠
      normal_map_view.comboBoxView := by
  decide

/-- When the save dialog is confirmed, `on_actionExportPreview_triggered` leaves
the index of the view-mode combo box as it found it. -/
theorem export_preview_confirmed (code : ViewMode → Int) (fileName : QString)
    (s : ViewState) (h : fileName ≠ []) :
    (on_actionExportPreview_triggered code fileName s).comboBoxView = s.comboBoxView := by
  unfold on_actionExportPreview_triggered
  simp only [h, if_false]
  unfold ViewState.setCurrentIndex
  split_ifs <;> simp_all

theorem export_preview_confirmed_witness :
    f1_png ≠ [] ∧
    (on_actionExportPreview_triggered view_mode_code f1_png normal_map_view).comboBoxView =
      normal_map_view.comboBoxView :=
  ⟨by decide, export_preview_confirmed view_mode_code f1_png normal_map_view (by decide)⟩

/-! ## The cells cut by "Split in frames" -/

theorem cell_step (a W h : Nat) (hh : 0 < h) : a * W / h + W / h ≤ (a + 1) * W / h := by
  rw [Nat.le_div_iff_mul_le hh, Nat.add_mul, Nat.succ_mul]
  exact Nat.add_le_add (Nat.div_mul_le_self _ _) (Nat.div_mul_le_self _ _)

theorem cell_before (a b W h : Nat) (hh : 0 < h) (hab : a < b) :
    a * W / h + W / h ≤ b * W / h :=
  le_trans (cell_step a W h hh) (Nat.div_le_div_right (Nat.mul_le_mul_right W hab))

theorem cell_inside (a W h : Nat) (hh : 0 < h) (ha : a < h) : a * W / h + W / h ≤ W := by
  have h1 := cell_before a h W h hh ha
  rwa [Nat.mul_div_cancel_left W hh] at h1

theorem split_in_frames_rects (filePath : QString) (W H h v : Nat) (hh : 0 < h)
    (hv : 0 < v) :
    (split_in_frames filePath W H h v).map Prod.snd =
      (List.range (h * v)).map fun k => frame_rect W H h v (k / h) (k % h) := by
  obtain ⟨hlen, hget⟩ := split_in_frames_cells filePath W H h v hh hv
  apply List.ext_getElem?
  intro n
  by_cases hn : n < h * v
  · have hj : n % h < h := Nat.mod_lt _ hh
    have hi : n / h < v := by
      rw [Nat.div_lt_iff_lt_mul hh, Nat.mul_comm]; exact hn
    have hidx : n % h + n / h * h = n := by
      rw [Nat.mul_comm, Nat.add_comm]; exact Nat.div_add_mod n h
    have := hget (n / h) (n % h) hi hj
    rw [hidx] at this
    simp [List.getElem?_map, this, List.getElem?_range hn]
  · have h1 : (List.map Prod.snd (split_in_frames filePath W H h v)).length ≤ n := by
      rw [List.length_map, hlen]; omega
    have h2 : ((List.range (h * v)).map fun k =>
        frame_rect W H h v (k / h) (k % h)).length ≤ n := by
      rw [List.length_map, List.length_range]; omega
    rw [List.getElem?_eq_none h1, List.getElem?_eq_none h2]

/-- Claim C23. For every `W`, `H` and `h > 0`, `v > 0`, the `h * v` cell
rectangles cut by "Split in frames" all lie inside the `W × H` image, and any
two of them have no pixel in common. -/
theorem split_in_frames_cells_disjoint (filePath : QString) (W H h v : Nat) (hh : 0 < h)
    (hv : 0 < v) :
    (∀ c ∈ split_in_frames filePath W H h v, c.2.inside W H) ∧
    List.Pairwise QRect.disjoint ((split_in_frames filePath W H h v).map Prod.snd) := by
  constructor
  · intro c hc
    have hmem : c.2 ∈ (split_in_frames filePath W H h v).map Prod.snd :=
      List.mem_map_of_mem _ hc
    rw [split_in_frames_rects filePath W H h v hh hv] at hmem
    simp only [List.mem_map, List.mem_range] at hmem
    obtain ⟨k, hk, hrect⟩ := hmem
    rw [← hrect]
    have hi : k / h < v := by
      rw [Nat.div_lt_iff_lt_mul hh, Nat.mul_comm]; exact hk
    exact ⟨cell_inside (k % h) W h hh (Nat.mod_lt _ hh), cell_inside (k / h) H v hv hi⟩
  · rw [split_in_frames_rects filePath W H h v hh hv, List.pairwise_map]
    refine List.Pairwise.imp_of_mem ?_ (List.pairwise_lt_range (h * v))
    intro a b _ _ hab x y hxy
    obtain ⟨⟨ax1, ax2, ay1, ay2⟩, ⟨bx1, bx2, by1, by2⟩⟩ := hxy
    simp only [frame_rect] at ax1 ax2 ay1 ay2 bx1 bx2 by1 by2
    have hle : a / h ≤ b / h := Nat.div_le_div_right hab.le
    rcases Nat.lt_or_ge (a / h) (b / h) with hlt | hge
    · have := cell_before (a / h) (b / h) H v hv hlt
      omega
    · have heq : a / h = b / h := le_antisymm hle hge
      have hmod : a % h < b % h := by
        have ha := Nat.div_add_mod a h
        have hb := Nat.div_add_mod b h
        rw [heq] at ha
        omega
      have := cell_before (a % h) (b % h) W h hh hmod
      omega

theorem split_in_frames_cells_disjoint_witness :
    0 < 3 ∧ 0 < 2 ∧
    (∀ c ∈ split_in_frames ['a', '.', 'b'] 10 7 (3 : Nat) (2 : Nat), c.2.inside 10 7) ∧
    List.Pairwise QRect.disjoint
      ((split_in_frames ['a', '.', 'b'] 10 7 (3 : Nat) (2 : Nat)).map Prod.snd) :=
  ⟨by decide, by decide,
    split_in_frames_cells_disjoint ['a', '.', 'b'] 10 7 3 2 (by decide) (by decide)⟩

/-! ## Selected and connected flags -/

theorem flags_foldl_disconnect (q : Ptr) :
    ∀ (l : List Ptr) (s : Selection),
      ((l.foldl disconnect_processor s).heap q).selected = (s.heap q).selected ∧
      ((l.foldl disconnect_processor s).heap q).connected =
        (if q ∈ l then false else (s.heap q).connected) := by
  intro l
  induction l with
  | nil => intro s; simp
  | cons p ps ih =>
    intro s
    obtain ⟨h1, h2⟩ := ih (disconnect_processor s p)
    rw [List.foldl_cons, h1, h2]
    by_cases hq : q = p
    · subst hq
      simp [disconnect_processor]
    · simp [disconnect_processor, Function.update_noteq hq, hq]

theorem flags_select_named (name : QString) (s : Selection) (p q : Ptr) :
    ((select_named name s p).heap q).connected = (s.heap q).connected := by
  unfold select_named
  split_ifs
  · by_cases hq : q = p
    · subst hq; simp [set_selected]
    · simp [set_selected, Function.update_noteq hq]
  · rfl

theorem flags_foldl_select_named (name : QString) (q : Ptr) :
    ∀ (l : List Ptr) (s : Selection),
      ((l.foldl (select_named name) s).heap q).connected = (s.heap q).connected := by
  intro l
  induction l with
  | nil => intro s; rfl
  | cons p ps ih =>
    intro s
    rw [List.foldl_cons, ih, flags_select_named]

theorem flags_connect_selected (s : Selection) (p q : Ptr) :
    ((connect_selected s p).heap q).selected = (s.heap q).selected ∧
    ((connect_selected s p).heap q).connected =
      (if q = p ∧ (s.heap q).selected = true then true else (s.heap q).connected) := by
  unfold connect_selected
  by_cases h : (s.heap p).selected = true
  · rw [if_pos h]
    by_cases hl : ((connect_processor s p).heap p).light_count > 0
    · simp only [hl, if_true]
      by_cases hq : q = p
      · subst hq; simp [connect_processor, h]
      · simp [connect_processor, Function.update_noteq hq, hq]
    · simp only [hl, if_false]
      by_cases hq : q = p
      · subst hq; simp [connect_processor, h]
      · simp [connect_processor, Function.update_noteq hq, hq]
  · rw [if_neg h]
    by_cases hq : q = p
    · subst hq; simp [h]
    · simp [hq]

theorem flags_foldl_connect_selected (q : Ptr) :
    ∀ (l : List Ptr) (s : Selection),
      ((l.foldl connect_selected s).heap q).selected = (s.heap q).selected ∧
      ((l.foldl connect_selected s).heap q).connected =
        (if q ∈ l ∧ (s.heap q).selected = true then true else (s.heap q).connected) := by
  intro l
  induction l with
  | nil => intro s; simp
  | cons p ps ih =>
    intro s
    obtain ⟨h1, h2⟩ := ih (connect_selected s p)
    obtain ⟨c1, c2⟩ := flags_connect_selected s p q
    rw [List.foldl_cons, h1, h2, c1, c2]
    refine ⟨rfl, ?_⟩
    by_cases hsel : (s.heap q).selected = true
    · by_cases hq : q = p
      · subst hq
        simp [hsel]
      · simp [hq, hsel]
    · simp [hsel]

theorem assign_disconnects (s : Selection) (p : Ptr) (b : Bool) :
    (processor_selected_assign s p b).processorList = s.processorList ∧
    ∀ q ∈ s.processorList, ((processor_selected_assign s p b).heap q).connected = false := by
  have hlist : (processor_selected_assign s p b).processorList = s.processorList := by
    cases b
    · exact (processor_selected_assign_false s p).2.2.2.1
    · exact (processor_selected_assign_true s p).2.2.2.1
  refine ⟨hlist, ?_⟩
  intro q hq
  have hd := (flags_foldl_disconnect q s.processorList s).2
  rw [if_pos hq] at hd
  have hheap : ((processor_selected_assign s p b).heap q).connected =
      ((s.processorList.foldl disconnect_processor s).heap q).connected := by
    unfold processor_selected_assign
    cases b
    · by_cases hqp : q = p
      · subst hqp; simp [set_selected]
      · simp [set_selected, Function.update_noteq hqp]
    · by_cases hqp : q = p
      · subst hqp; simp [set_selected]
      · simp [set_selected, Function.update_noteq hqp]
  rw [hheap, hd]

theorem connect_matches_flags (a : Selection)
    (ha : ∀ q ∈ a.processorList, (a.heap q).connected = false) :
    ∀ q ∈ a.processorList,
      ((processor_selected_connect a).heap q).connected =
        ((processor_selected_connect a).heap q).selected := by
  have stage1 : ∀ t : Selection, (∀ q ∈ t.processorList, (t.heap q).connected = false) →
      (if t.selectedItems.length = 1 then
        t.processorList.foldl (select_named (t.rows.getD (t.selectedItems.getD 0 0) [])) t
       else t).processorList = t.processorList ∧
      ∀ q ∈ t.processorList,
        ((if t.selectedItems.length = 1 then
          t.processorList.foldl (select_named (t.rows.getD (t.selectedItems.getD 0 0) [])) t
         else t).heap q).connected = false := by
    intro t ht
    split_ifs
    · refine ⟨(sameFrame_foldl _ (sameFrame_select_named _) _ t).2.2.2.1, ?_⟩
      intro q hq
      rw [flags_foldl_select_named]
      exact ht q hq
    · exact ⟨rfl, ht⟩
  have stage2 : ∀ t : Selection, (∀ q ∈ t.processorList, (t.heap q).connected = false) →
      (t.processorList.foldl connect_selected t).processorList = t.processorList ∧
      ∀ q ∈ t.processorList,
        ((t.processorList.foldl connect_selected t).heap q).connected =
          ((t.processorList.foldl connect_selected t).heap q).selected := by
    intro t ht
    refine ⟨(sameFrame_foldl _ sameFrame_connect_selected _ t).2.2.2.1, ?_⟩
    intro q hq
    obtain ⟨h1, h2⟩ := flags_foldl_connect_selected q t.processorList t
    rw [h1, h2, ht q hq]
    cases (t.heap q).selected <;> simp [hq]
  have stage3 : ∀ (L : List Ptr) (t : Selection),
      (∀ q ∈ L, (t.heap q).connected = (t.heap q).selected) →
      ∀ q ∈ L,
        ((if (t.heap t.sample_processor).selected = true then
            connect_processor t t.sample_processor else t).heap q).connected =
        ((if (t.heap t.sample_processor).selected = true then
            connect_processor t t.sample_processor else t).heap q).selected := by
    intro L t ht q hq
    split_ifs with hs
    · by_cases hqs : q = t.sample_processor
      · subst hqs; simp [connect_processor, hs]
      · simp [connect_processor, Function.update_noteq hqs, ht q hq]
    · exact ht q hq
  have stage4 : ∀ (L : List Ptr) (t : Selection),
      (∀ q ∈ L, (t.heap q).connected = (t.heap q).selected) →
      ∀ q ∈ L,
        ((if t.rows.length = 0 then { t with map_controls_enabled := true } else t).heap
            q).connected =
        ((if t.rows.length = 0 then { t with map_controls_enabled := true } else t).heap
            q).selected := by
    intro L t ht q hq
    split_ifs
    · exact ht q hq
    · exact ht q hq
  obtain ⟨l1, f1⟩ := stage1 a ha
  obtain ⟨-, f2⟩ := stage2
    (if a.selectedItems.length = 1 then
      a.processorList.foldl (select_named (a.rows.getD (a.selectedItems.getD 0 0) [])) a
     else a) (by rw [l1]; exact f1)
  unfold processor_selected_connect
  exact stage4 _ _ (stage3 _ _ (fun q hq => f2 q (by rw [l1]; exact hq)))

/-- For every member of the processor list, the connected flag after
`processor_selected` is its selected flag. -/
theorem processor_selected_list_flags (s : Selection) (p : Ptr) (b : Bool) :
    ∀ q ∈ s.processorList,
      ((processor_selected s p b).heap q).connected =
        ((processor_selected s p b).heap q).selected := by
  obtain ⟨hlist, hflags⟩ := assign_disconnects s p b
  have := connect_matches_flags (processor_selected_assign s p b)
    (by rw [hlist]; exact hflags)
  rw [hlist] at this
  exact this

/-- Claim C24, failing input. The sample processor is selected and connected
and a sprite has been opened; `processor_selected(sample_processor, false)`, as
the selection handler of the list calls it, clears the sample processor's
selected flag and leaves it connected. -/
theorem processor_selected_sample_stays_connected :
    opened_selection.sample_processor = 0 ∧
    ((processor_selected opened_selection 0 false).heap 0).selected = false ∧
    ((processor_selected opened_selection 0 false).heap 0).connected = true := by
  decide

/-! ## Renaming loops -/

theorem rename_while_free (taken : QString → Bool) (candidate : Nat → QString) :
    ∀ (fuel : Nat) (name : QString) (i : Nat) (r : QString),
      rename_while taken candidate fuel name i = some r → taken r = false := by
  intro fuel
  induction fuel with
  | zero => intro name i r h; simp [rename_while] at h
  | succ fuel ih =>
    intro name i r h
    rw [rename_while] at h
    split_ifs at h with ht
    · exact ih _ _ _ h
    · simp only [Option.some.injEq] at h
      rw [← h]
      simpa using ht

theorem rename_while_succ (taken : QString → Bool) (candidate : Nat → QString) :
    ∀ (fuel : Nat) (name : QString) (i : Nat) (r : QString),
      rename_while taken candidate fuel name i = some r →
      rename_while taken candidate (fuel + 1) name i = some r := by
  intro fuel
  induction fuel with
  | zero => intro name i r h; simp [rename_while] at h
  | succ fuel ih =>
    intro name i r h
    rw [rename_while] at h
    rw [rename_while]
    split_ifs at h ⊢ with ht
    · exact ih _ _ _ h
    · exact h

theorem rename_while_mono (taken : QString → Bool) (candidate : Nat → QString)
    (fuel : Nat) (name : QString) (i : Nat) (r : QString)
    (h : rename_while taken candidate fuel name i = some r) :
    ∀ fuel2, fuel ≤ fuel2 → rename_while taken candidate fuel2 name i = some r := by
  intro fuel2 hle
  induction hle with
  | refl => exact h
  | step _ ih => exact rename_while_succ _ _ _ _ _ _ ih

theorem rename_while_progress (taken : QString → Bool) (candidate : Nat → QString) :
    ∀ (k fuel : Nat) (name : QString) (i : Nat),
      taken (candidate (i + 1 + k)) = false → k + 2 ≤ fuel →
      ∃ r, rename_while taken candidate fuel name i = some r := by
  intro k
  induction k with
  | zero =>
    intro fuel name i hfree hfuel
    obtain ⟨f, rfl⟩ : ∃ f, fuel = f + 2 := ⟨fuel - 2, by omega⟩
    rw [rename_while]
    split_ifs
    · rw [rename_while]
      simp only [Nat.add_zero] at hfree
      simp [hfree]
    · exact ⟨_, rfl⟩
  | succ k ih =>
    intro fuel name i hfree hfuel
    obtain ⟨f, rfl⟩ : ∃ f, fuel = f + 1 := ⟨fuel - 1, by omega⟩
    rw [rename_while]
    split_ifs
    · apply ih
      · rw [show i + 1 + 1 + k = i + 1 + (k + 1) by omega]
        exact hfree
      · omega
    · exact ⟨_, rfl⟩

theorem exists_free_candidate (items : List QString) (candidate : Nat → QString)
    (hinj : ∀ a b, 0 < a → 0 < b → candidate a = candidate b → a = b) (i : Nat) :
    ∃ k, k ≤ items.length ∧ candidate (i + 1 + k) ∉ items := by
  by_contra hall
  push_neg at hall
  have hnodup : ((List.range (items.length + 1)).map fun k => candidate (i + 1 + k)).Nodup := by
    apply List.Nodup.map_on _ (List.nodup_range _)
    intro x _ y _ hxy
    have := hinj _ _ (by omega) (by omega) hxy
    omega
  have hsub : ((List.range (items.length + 1)).map fun k => candidate (i + 1 + k)) ⊆ items := by
    intro c hc
    simp only [List.mem_map, List.mem_range] at hc
    obtain ⟨k, hk, rfl⟩ := hc
    exact hall k (by omega)
  have hlen := (List.subperm_of_subset hnodup hsub).length_le
  simp at hlen

/-- With candidates that differ for different counters, the renaming loop over a
finite list of taken names ends within `items.length + 2` tests, with a name
that is not taken. -/
theorem rename_while_terminates (items : List QString) (candidate : Nat → QString)
    (hinj : ∀ a b, 0 < a → 0 < b → candidate a = candidate b → a = b)
    (name : QString) (i : Nat) :
    ∃ r, (∀ fuel, items.length + 2 ≤ fuel →
        rename_while (fun n => decide (n ∈ items)) candidate fuel name i = some r) ∧
      r ∉ items := by
  obtain ⟨k, hk, hfree⟩ := exists_free_candidate items candidate hinj i
  obtain ⟨r, hr⟩ := rename_while_progress (fun n => decide (n ∈ items)) candidate k
    (items.length + 2) name i (by simpa using hfree) (by omega)
  refine ⟨r, fun fuel hfuel => rename_while_mono _ _ _ _ _ _ hr fuel hfuel, ?_⟩
  have := rename_while_free _ _ _ _ _ _ hr
  simpa using this

theorem digitChar_inj (a b : Nat) (ha : a < 10) (hb : b < 10)
    (h : Nat.digitChar a = Nat.digitChar b) : a = b := by
  rcases Nat.lt_trichotomy a b with hlt | heq | hgt
  · have := digitChar_lt a b hlt hb
    rw [h] at this
    exact absurd this (lt_irrefl _)
  · exact heq
  · have := digitChar_lt b a hgt ha
    rw [h] at this
    exact absurd this (lt_irrefl _)

theorem map_digitChar_inj :
    ∀ (l1 l2 : List Nat), (∀ d ∈ l1, d < 10) → (∀ d ∈ l2, d < 10) →
      l1.map Nat.digitChar = l2.map Nat.digitChar → l1 = l2 := by
  intro l1
  induction l1 with
  | nil =>
    intro l2 _ _ h
    cases l2 with
    | nil => rfl
    | cons _ _ => simp at h
  | cons a as ih =>
    intro l2 h1 h2 h
    cases l2 with
    | nil => simp at h
    | cons b bs =>
      simp only [List.map_cons, List.cons.injEq] at h
      have hab := digitChar_inj a b (h1 a (List.mem_cons_self _ _))
        (h2 b (List.mem_cons_self _ _)) h.1
      have hrest := ih bs (fun d hd => h1 d (List.mem_cons_of_mem _ hd))
        (fun d hd => h2 d (List.mem_cons_of_mem _ hd)) h.2
      rw [hab, hrest]

theorem toDecimal_inj_pos (a b : Nat) (ha : 0 < a) (hb : 0 < b)
    (h : toDecimal a = toDecimal b) : a = b := by
  unfold toDecimal at h
  rw [if_neg (by omega), if_neg (by omega)] at h
  have hrev := map_digitChar_inj _ _
    (fun d hd => Nat.digits_lt_base (by norm_num) (List.mem_reverse.mp hd))
    (fun d hd => Nat.digits_lt_base (by norm_num) (List.mem_reverse.mp hd)) h
  exact Nat.digits_inj_iff.mp (List.reverse_injective hrev)

theorem open_files_candidate_inj (baseName : QString) (a b : Nat) (ha : 0 < a) (hb : 0 < b)
    (h : open_files_candidate baseName a = open_files_candidate baseName b) : a = b := by
  unfold open_files_candidate at h
  simp only [List.append_assoc] at h
  have h1 := List.append_cancel_left (List.append_cancel_left h)
  exact toDecimal_inj_pos a b ha hb (List.append_cancel_right h1)

theorem export_candidate_inj (path baseName ending suffix : QString) (a b : Nat)
    (ha : 0 < a) (hb : 0 < b)
    (h : export_candidate path baseName ending suffix a =
      export_candidate path baseName ending suffix b) : a = b := by
  unfold export_candidate at h
  have h1 := List.append_cancel_right (List.append_cancel_right
    (List.append_cancel_right h))
  simp only [List.append_assoc] at h1
  have h2 := List.append_cancel_left (List.append_cancel_left
    (List.append_cancel_left (List.append_cancel_left h1)))
  exact toDecimal_inj_pos a b ha hb h2

/-- Claim C26. For every finite list of existing list items, the renaming loop
of `open_files` ends (within `items.length + 2` tests of its condition, and
with the same result under any larger bound), and the name that it leaves for
the new processor is not the text of any item of the list. -/
theorem open_files_name_terminates (items : List QString) (baseName name : QString) :
    ∃ r, (∀ fuel, items.length + 2 ≤ fuel →
        open_files_name items baseName name fuel = some r) ∧
      r ∉ items :=
  rename_while_terminates items (open_files_candidate baseName)
    (open_files_candidate_inj baseName) name 1

theorem export_name_terminates (files : List QString)
    (path baseName ending suffix : QString) :
    ∃ r, export_name files path baseName ending suffix (files.length + 2) = some r ∧
      r ∉ files := by
  obtain ⟨r, hr, hfree⟩ := rename_while_terminates files
    (export_candidate path baseName ending suffix)
    (export_candidate_inj path baseName ending suffix)
    (path ++ "/".toList ++ baseName ++ ending ++ suffix) 1
  exact ⟨r, hr _ (le_refl _), hfree⟩

theorem export_kind_cons (saves : QString → Bool) (path ending pname name : QString)
    (rest : List QString) (s : ExportState)
    (h : export_name s.files path (QFileInfo.baseName pname) ending
      (QFileInfo.completeSuffix pname) (s.files.length + 2) = some name) :
    export_kind saves path ending (pname :: rest) s =
      export_kind saves path ending rest
        { files := if saves name = true then name :: s.files else s.files
          saved := s.saved ++ [(name, s.files)] } := by
  rw [export_kind, h]

theorem export_kind_saves (saves : QString → Bool) (path ending : QString) :
    ∀ (names : List QString) (s : ExportState), (∀ e ∈ s.saved, e.1 ∉ e.2) →
      ∃ r, export_kind saves path ending names s = some r ∧ ∀ e ∈ r.saved, e.1 ∉ e.2 := by
  intro names
  induction names with
  | nil => intro s hs; exact ⟨s, rfl, hs⟩
  | cons pname rest ih =>
    intro s hs
    obtain ⟨name, hname, hfree⟩ := export_name_terminates s.files path
      (QFileInfo.baseName pname) ending (QFileInfo.completeSuffix pname)
    rw [export_kind_cons saves path ending pname name rest s hname]
    apply ih
    intro e he
    simp only [List.mem_append, List.mem_singleton] at he
    rcases he with he | he
    · exact hs e he
    · rw [he]; exact hfree

theorem export_stage (saves : QString → Bool) (path ending : QString) (names : List QString)
    (c : Bool) (s : ExportState) (hs : ∀ e ∈ s.saved, e.1 ∉ e.2) :
    ∃ r, (if c = true then export_kind saves path ending names s else some s) = some r ∧
      ∀ e ∈ r.saved, e.1 ∉ e.2 := by
  cases c
  · exact ⟨s, rfl, hs⟩
  · exact export_kind_saves saves path ending names s hs

/-- Claim C30. In `on_pushButtonExportTo_clicked`, for every finite list of
existing files, every renaming loop ends, so the function runs to its end, and
every file name under which a map is saved did not exist when it was chosen. -/
theorem export_never_overwrites (saves : QString → Bool) (checks : ExportChecks)
    (path : QString) (names files : List QString) :
    ∃ r, on_pushButtonExportTo_clicked saves checks path names
        { files := files, saved := [] } = some r ∧
      ∀ e ∈ r.saved, e.1 ∉ e.2 := by
  unfold on_pushButtonExportTo_clicked
  by_cases hpath : path ≠ []
  · rw [if_pos hpath]
    obtain ⟨r1, h1, i1⟩ := export_stage saves path "_n.".toList names
      checks.checkBoxExportNormal { files := files, saved := [] } (by intro e he; cases he)
    obtain ⟨r2, h2, i2⟩ := export_stage saves path "_p.".toList names
      checks.checkBoxExportParallax r1 i1
    obtain ⟨r3, h3, i3⟩ := export_stage saves path "_s.".toList names
      checks.checkBoxExportSpecular r2 i2
    obtain ⟨r4, h4, i4⟩ := export_stage saves path "_o.".toList names
      checks.checkBoxExportOcclusion r3 i3
    refine ⟨r4, ?_, i4⟩
    rw [h1, Option.some_bind, h2, Option.some_bind, h3, Option.some_bind, h4]
  · rw [if_neg hpath]
    exact ⟨_, rfl, by intro e he; cases he⟩

/-! ## Names after "Split in frames", and files opened twice -/

theorem loadImage_name (path : QString) (image : QImage) (p : ImageProcessor) :
    (p.loadImage path image).name = p.name := by
  unfold ImageProcessor.loadImage
  split
  · rfl
  · split_ifs <;> rfl

/-- The processor that "Split in frames" adds is named after the processor it
splits, with `(frames)` appended, whatever names the list already holds. -/
theorem split_in_frames_action_names (p : ImageProcessor) (h_frames v_frames : Int)
    (s : MainWindow ImageProcessor) (h : h_frames > 0 ∧ v_frames > 0) :
    (split_in_frames_action p h_frames v_frames s).processorList.map ImageProcessor.name =
      s.processorList.map ImageProcessor.name ++ [p.name ++ "(frames)".toList] := by
  have hfold : ∀ (cells : List (QString × QRect)) (q : ImageProcessor),
      (cells.foldl (fun q c => q.loadImage c.1 (p.current_image.copy c.2)) q).name =
        q.name := by
    intro cells
    induction cells with
    | nil => intro q; rfl
    | cons c cs ih => intro q; rw [List.foldl_cons, ih, loadImage_name]
  unfold split_in_frames_action
  rw [if_pos h]
  simp only [add_processor, List.map_append, List.map_cons, List.map_nil, hfold]

theorem split_in_frames_action_names_witness :
    ((1 : Int) > 0 ∧ (1 : Int) > 0) ∧
    (split_in_frames_action sprite_processor 1 1
        { processorList := [sprite_processor], fs_watcher := [],
          need_to_update := false }).processorList.map ImageProcessor.name =
      ([sprite_processor].map ImageProcessor.name ++
        [sprite_processor.name ++ "(frames)".toList]) :=
  ⟨by decide,
    split_in_frames_action_names sprite_processor 1 1
      { processorList := [sprite_processor], fs_watcher := [], need_to_update := false }
      (by decide)⟩

/-- Claim C27, failing input. The list holds the sprite `sprite`.  After one
"Split in frames" of it the names `sprite` and `sprite(frames)` are distinct;
after a second "Split in frames" of the same sprite the list holds two
processors named `sprite(frames)`. -/
theorem split_in_frames_twice_same_name :
    ((split_in_frames_action sprite_processor 1 1
        { processorList := [sprite_processor], fs_watcher := [],
          need_to_update := false }).processorList.map ImageProcessor.name).Nodup ∧
    (split_in_frames_action sprite_processor 1 1
        (split_in_frames_action sprite_processor 1 1
          { processorList := [sprite_processor], fs_watcher := [],
            need_to_update := false })).processorList.map ImageProcessor.name =
      ["sprite".toList, "sprite(frames)".toList, "sprite(frames)".toList] ∧
    ¬ ((split_in_frames_action sprite_processor 1 1
        (split_in_frames_action sprite_processor 1 1
          { processorList := [sprite_processor], fs_watcher := [],
            need_to_update := false })).processorList.map ImageProcessor.name).Nodup := by
  decide

/-- Claim C28, failing input. The files `a1`, `b1`, `a2` are opened in this
order and the user accepts both animations.  The group of `a1` is loaded for
`a1`, the group of `b1` replaces it in `similarFiles`, and `a2` is then not
skipped: the files `a1` and `a2` are loaded into a first and into a third
processor. -/
theorem open_files_loads_group_twice :
    open_files_groups two_animations [a1_png, b1_png, a2_png] [] [] =
      [{ fileName := a1_png, name := "a".toList, similarList := [a1_png, a2_png] },
       { fileName := b1_png, name := "b".toList, similarList := [b1_png, b2_png] },
       { fileName := a2_png, name := "a".toList, similarList := [a1_png, a2_png] }] ∧
    (open_files ImageProcessor.api sample_fs any_loader two_animations new_processor
        [a1_png, b1_png, a2_png]
        { processorList := [], fs_watcher := [],
          need_to_update := false }).processorList.map
        (fun p => p.frames.map Sprite.fileName) =
      [[a1_png, a2_png], [b1_png, b2_png], [a1_png, a2_png]] := by
  decide

/-! ## The images that "Split in frames" hands to `loadImage` -/

theorem copy_of_pos (img : QImage) (r : QRect) (hw : 0 < r.width) (hh : 0 < r.height) :
    img.copy r =
      { width := r.width
        height := r.height
        premultiplied := img.premultiplied
        pixels := (List.range r.height).flatMap fun y =>
          (List.range r.width).map fun x =>
            if r.x + x < img.width ∧ r.y + y < img.height then
              img.pixels.getD ((r.y + y) * img.width + (r.x + x)) 0
            else 0 } := by
  unfold QImage.copy
  rw [if_neg (by omega), if_neg (by omega)]

theorem copy_pixel (img : QImage) (r : QRect) (hw : 0 < r.width) (hh : 0 < r.height)
    (hinside : r.inside img.width img.height) (x y : Nat) (hx : x < r.width)
    (hy : y < r.height) :
    (img.copy r).pixels[x + y * r.width]? =
      some (img.pixels.getD ((r.y + y) * img.width + (r.x + x)) 0) := by
  rw [copy_of_pos img r hw hh]
  show ((List.range r.height).flatMap fun y =>
      (List.range r.width).map fun x =>
        if r.x + x < img.width ∧ r.y + y < img.height then
          img.pixels.getD ((r.y + y) * img.width + (r.x + x)) 0
        else 0)[x + y * r.width]? = _
  rw [getElem?_flatMap_range_map _ r.width r.height y x hy hx]
  obtain ⟨h1, h2⟩ := hinside
  rw [if_pos ⟨by omega, by omega⟩]

theorem split_in_frames_calls_cells (filePath : QString) (original : QImage) (h v : Nat)
    (hh : 0 < h) (hv : 0 < v) :
    (split_in_frames_calls filePath original h v).length = h * v ∧
    ∀ i j, i < v → j < h →
      (split_in_frames_calls filePath original h v)[j + i * h]? =
        some (frame_path filePath h v i j,
          original.copy (frame_rect original.width original.height h v i j)) := by
  obtain ⟨hlen, hget⟩ :=
    split_in_frames_cells filePath original.width original.height h v hh hv
  refine ⟨?_, ?_⟩
  · rw [split_in_frames_calls, List.length_map, hlen]
  · intro i j hi hj
    rw [split_in_frames_calls, List.getElem?_map, hget i j hi hj]
    rfl

/-- Claim C1, counterexample. The `2 × 2` image of the sprite is split in
`3 × 3` frames: the size `(2 / 3) × (2 / 3)` is `0 × 0`, the rectangle handed to
`QImage::copy` is null, and each of the nine `loadImage` calls receives the
whole `2 × 2` image. -/
theorem split_in_frames_grid_larger_than_image :
    sprite_processor.current_image.width = 2 ∧
    sprite_processor.current_image.height = 2 ∧
    (split_in_frames_calls sprite_processor.current_fileName
        sprite_processor.current_image 3 3).map Prod.snd =
      List.replicate 9 sprite_processor.current_image ∧
    ∀ c ∈ split_in_frames_calls sprite_processor.current_fileName
        sprite_processor.current_image 3 3,
      ¬ (c.2.width = 2 / 3 ∧ c.2.height = 2 / 3) := by
  decide

/-- Claim C1, as the code has it. For a diffuse image of size `W × H` and
`h > 0`, `v > 0`, "Split in frames" is the sequence of `h * v` `loadImage` calls
on the new processor, followed by `add_processor`; the call at position
`j + i * h` (row `i`, column `j`, row-major) receives the path whose embedded
index is `j + i * h` and the image that `QImage::copy` returns for the rectangle
with top-left corner `(j * W / h, i * H / v)` and size `(W / h) × (H / v)`.  When
`h ≤ W` and `v ≤ H`, this image has size `(W / h) × (H / v)` and its pixel
`(x, y)` is the pixel `(j * W / h + x, i * H / v + y)` of the diffuse image, so
all cells have the same dimensions. -/
theorem split_in_frames_row_major (p : ImageProcessor) (s : MainWindow ImageProcessor)
    (h v : Nat) (hh : 0 < h) (hv : 0 < v) :
    split_in_frames_action p h v s =
      add_processor
        ((split_in_frames_calls p.current_fileName p.current_image h v).foldl
          (fun q c => q.loadImage c.1 c.2)
          { name := p.name ++ "(frames)".toList, frames := [], current_frame_id := 0 }) s ∧
    (split_in_frames_calls p.current_fileName p.current_image h v).length = h * v ∧
    ∀ i j, i < v → j < h →
      ∃ image,
        (split_in_frames_calls p.current_fileName p.current_image h v)[j + i * h]? =
          some (join (split '.' p.current_fileName)
                  ('_' :: arg (j + i * h) (log10_plus_one (v * h)) '0' ++ ['.']),
                image) ∧
        image = p.current_image.copy
          { x := j * p.current_image.width / h, y := i * p.current_image.height / v,
            width := p.current_image.width / h, height := p.current_image.height / v } ∧
        (h ≤ p.current_image.width → v ≤ p.current_image.height →
          image.width = p.current_image.width / h ∧
          image.height = p.current_image.height / v ∧
          image.premultiplied = p.current_image.premultiplied ∧
          image.pixels.length = p.current_image.width / h * (p.current_image.height / v) ∧
          ∀ x y, x < p.current_image.width / h → y < p.current_image.height / v →
            image.pixels[x + y * (p.current_image.width / h)]? =
              some (p.current_image.pixels.getD
                ((i * p.current_image.height / v + y) * p.current_image.width +
                  (j * p.current_image.width / h + x)) 0)) := by
  have hg : ((h : Int) > 0 ∧ (v : Int) > 0) := ⟨by exact_mod_cast hh, by exact_mod_cast hv⟩
  obtain ⟨hlen, hget⟩ :=
    split_in_frames_calls_cells p.current_fileName p.current_image h v hh hv
  refine ⟨?_, hlen, ?_⟩
  · unfold split_in_frames_action
    rw [if_pos hg]
    simp only [split_in_frames_calls, List.foldl_map]
  · intro i j hi hj
    refine ⟨_, hget i j hi hj, rfl, ?_⟩
    intro hW hH
    have hw : 0 < p.current_image.width / h := Nat.div_pos hW hh
    have hht : 0 < p.current_image.height / v := Nat.div_pos hH hv
    have hinside : (frame_rect p.current_image.width p.current_image.height h v i j).inside
        p.current_image.width p.current_image.height :=
      ⟨cell_inside j _ h hh hj, cell_inside i _ v hv hi⟩
    refine ⟨?_, ?_, ?_, ?_, ?_⟩
    · rw [copy_of_pos _ _ hw hht]; rfl
    · rw [copy_of_pos _ _ hw hht]; rfl
    · rw [copy_of_pos _ _ hw hht]
    · rw [copy_of_pos _ _ hw hht]
      show ((List.range (p.current_image.height / v)).flatMap fun y =>
        (List.range (p.current_image.width / h)).map fun x => _).length = _
      rw [length_flatMap_range_map, Nat.mul_comm]
    · intro x y hx hy
      exact copy_pixel p.current_image
        (frame_rect p.current_image.width p.current_image.height h v i j) hw hht hinside
        x y hx hy

theorem split_in_frames_row_major_witness :
    0 < 2 ∧ 0 < 1 ∧
    (split_in_frames_action strip_processor ((2 : Nat) : Int) ((1 : Nat) : Int)
        { processorList := [strip_processor], fs_watcher := [], need_to_update := false } =
      add_processor
        ((split_in_frames_calls strip_processor.current_fileName
            strip_processor.current_image ((2 : Nat) : Int) ((1 : Nat) : Int)).foldl
          (fun q c => q.loadImage c.1 c.2)
          { name := strip_processor.name ++ "(frames)".toList, frames := [],
            current_frame_id := 0 })
        { processorList := [strip_processor], fs_watcher := [], need_to_update := false } ∧
    (split_in_frames_calls strip_processor.current_fileName strip_processor.current_image
        ((2 : Nat) : Int) ((1 : Nat) : Int)).length = 2 * 1 ∧
    ∀ i j, i < 1 → j < 2 →
      ∃ image,
        (split_in_frames_calls strip_processor.current_fileName
            strip_processor.current_image ((2 : Nat) : Int) ((1 : Nat) : Int))[j + i * 2]? =
          some (join (split '.' strip_processor.current_fileName)
                  ('_' :: arg (j + i * 2) (log10_plus_one (1 * 2)) '0' ++ ['.']),
                image) ∧
        image = strip_processor.current_image.copy
          { x := j * strip_processor.current_image.width / 2,
            y := i * strip_processor.current_image.height / 1,
            width := strip_processor.current_image.width / 2,
            height := strip_processor.current_image.height / 1 } ∧
        (2 ≤ strip_processor.current_image.width →
          1 ≤ strip_processor.current_image.height →
          image.width = strip_processor.current_image.width / 2 ∧
          image.height = strip_processor.current_image.height / 1 ∧
          image.premultiplied = strip_processor.current_image.premultiplied ∧
          image.pixels.length = strip_processor.current_image.width / 2 *
            (strip_processor.current_image.height / 1) ∧
          ∀ x y, x < strip_processor.current_image.width / 2 →
            y < strip_processor.current_image.height / 1 →
            image.pixels[x + y * (strip_processor.current_image.width / 2)]? =
              some (strip_processor.current_image.pixels.getD
                ((i * strip_processor.current_image.height / 1 + y) *
                    strip_processor.current_image.width +
                  (j * strip_processor.current_image.width / 2 + x)) 0))) :=
  ⟨by decide, by decide,
    split_in_frames_row_major strip_processor
      { processorList := [strip_processor], fs_watcher := [], need_to_update := false }
      2 1 (by decide) (by decide)⟩

/-- The `4 × 2` image split in `2 × 1` frames: the two calls receive its left
half and its right half. -/
theorem split_in_frames_strip_halves :
    2 ≤ strip_processor.current_image.width ∧ 1 ≤ strip_processor.current_image.height ∧
    (split_in_frames_calls strip_processor.current_fileName strip_processor.current_image
        2 1).map Prod.snd =
      [{ width := 2, height := 2, premultiplied := true, pixels := [1, 2, 5, 6] },
       { width := 2, height := 2, premultiplied := true, pixels := [3, 4, 7, 8] }] := by
  decide

end Laigter
